import Mathlib

/-!
# hometasks_10_c : `Core/Src/main.c`

A shallow embedding of the FreeRTOS demo in `main.c`: the task slot table
`task_handlers`, the lifecycle manager `manage_tasks`, the button poll loop
`read_button_state_task`, the four LED toggle tasks, the idle hook and the
load estimator `cpu_load_calc_task`.

Conventions.
* `uint32_t` values are `Nat`, with `% 2 ^ 32` written where C arithmetic wraps.
* One iteration of a `while(1)` task body is a function on `State`; the
  suspension call `vTaskDelay` has no effect on the modelled state.
* `error_handler` never returns: a computation that enters it yields
  `Except.error st`, where `st` is the state in which it spins forever.
* The scheduler and the GPIO driver are not part of `main.c`; their effect on
  the modelled state is described by the definitions marked as such below.
* `float` is IEEE-754 binary32: every conversion, product and quotient is
  rounded to the nearest value with a 24-bit significand, ties to even
  (`round_binary32`). Finite values are carried as the rationals they denote.
-/

namespace Homework

/-! ## Constants of `main.c` -/

def GPIO_PIN_0 : Nat := 0x0001
def GPIO_PIN_8 : Nat := 0x0100
def GPIO_PIN_9 : Nat := 0x0200
def GPIO_PIN_10 : Nat := 0x0400
def GPIO_PIN_11 : Nat := 0x0800
def GPIO_PIN_12 : Nat := 0x1000
def GPIO_PIN_13 : Nat := 0x2000
def GPIO_PIN_14 : Nat := 0x4000
def GPIO_PIN_15 : Nat := 0x8000

def BLUE_LED_1 : Nat := GPIO_PIN_8
def RED_LED_1 : Nat := GPIO_PIN_9
def ORANGE_LED_1 : Nat := GPIO_PIN_10
def GREEN_LED_1 : Nat := GPIO_PIN_11
def BLUE_LED_2 : Nat := GPIO_PIN_12
def RED_LED_2 : Nat := GPIO_PIN_13
def ORANGE_LED_2 : Nat := GPIO_PIN_14
def GREEN_LED_2 : Nat := GPIO_PIN_15

def BUTTON_PIN : Nat := GPIO_PIN_0

def MAX_TASKS_NUMBER : Nat := 4

def LED_CTRL_TASK_PRIORITY : Nat := 1
def BUTTON_READ_STATE_TASK_PRIORITY : Nat := 2
def CPU_LOAD_CALC_TASK_PRIORITY : Nat := 3

/-- Wrap-around bound of `uint32_t`. -/
def UINT32_MOD : Nat := 2 ^ 32

/-- Addition of two `uint32_t` values as C performs it. -/
def uadd32 (a b : Nat) : Nat := (a + b) % UINT32_MOD

/-! ## Data model -/

/-- A `TaskHandle_t`: a pointer value, with `NULL` being `0`. -/
abbrev TaskHandle := Nat

def NULL : TaskHandle := 0

/-- The task functions defined in `main.c`. -/
inductive TaskFn where
  | read_button_state_task
  | red_led_ctrl_task
  | green_led_ctrl_task
  | blue_led_ctrl_task
  | orange_led_ctrl_task
  | cpu_load_calc_task
  deriving DecidableEq, Repr

/-- A task known to the scheduler: its handle, its code and its priority. -/
structure Tcb where
  handle : TaskHandle
  code : TaskFn
  priority : Nat
  deriving DecidableEq, Repr

/-- Value of a C `float` expression: a finite value is carried as the
rational it denotes; `nan` and `inf` are the IEEE-754 results of `0/0` and of
`x/0` with `x > 0`. -/
inductive FloatVal where
  | nan
  | inf
  | finite (q : ℚ)
  deriving DecidableEq

/-- The global variables of `main.c`, the output data register of port E and
the scheduler's set of live tasks. -/
structure State where
  task_handlers : Fin 4 → TaskHandle
  th_index : Nat
  cpu_load : FloatVal
  red_led_ctrl_task_profiler : Nat
  green_led_ctrl_task_profiler : Nat
  blue_led_ctrl_task_profiler : Nat
  orange_led_ctrl_task_profiler : Nat
  read_button_state_task_profiler : Nat
  idle_task_profiler : Nat
  GPIOE_ODR : Nat
  tasks : List Tcb

/-- The static initialisers of `main.c` (lines 75-96), with port E as
`GPIO_Init` leaves it (all LED pins reset) and no task created yet. -/
def initial_state : State where
  task_handlers := fun _ => NULL
  th_index := 0
  cpu_load := FloatVal.finite 0
  red_led_ctrl_task_profiler := 0
  green_led_ctrl_task_profiler := 0
  blue_led_ctrl_task_profiler := 0
  orange_led_ctrl_task_profiler := 0
  read_button_state_task_profiler := 0
  idle_task_profiler := 0
  GPIOE_ODR := 0
  tasks := []

/-! ## External collaborators -/

/-- Modelled from the spec: the output driver's `set(pin-group, level)`
(`HAL_GPIO_WritePin` of the vendor HAL, absent from the sources). Level
`true` is `GPIO_PIN_SET`, which raises every pin of the mask; level `false`
is `GPIO_PIN_RESET`, which clears every pin of the mask. The port is 16 pins
wide. -/
def HAL_GPIO_WritePin (odr : Nat) (pins : Nat) (level : Bool) : Nat :=
  if level then odr ||| pins else odr &&& (0xFFFF ^^^ pins)

/-- Modelled from the spec: the output driver's `toggle(pin-group)`
(`HAL_GPIO_TogglePin` of the vendor HAL, absent from the sources): every pin
of the mask changes level. -/
def HAL_GPIO_TogglePin (odr : Nat) (pins : Nat) : Nat :=
  odr ^^^ pins

/-- The scheduler's spawn primitive `xTaskCreate`, taken as a parameter: from
the live tasks, the task function and the priority it either fails (`none`,
the call returns something other than `pdPASS`) or succeeds with the handle it
stores through the last argument. -/
abbrev Spawn := List Tcb → TaskFn → Nat → Option TaskHandle

/-- Modelled from the spec: the scheduler's terminate primitive
(`vTaskDelete` of FreeRTOS, absent from the sources): the task with the given
handle stops being a live task. -/
def vTaskDelete (tasks : List Tcb) (h : TaskHandle) : List Tcb :=
  tasks.filter (fun t => t.handle != h)

/-- A spawn attempt succeeds when it reports `pdPASS`; the handle it then
returns is a valid (non-`NULL`) task handle. -/
def SpawnSucceeds (xTaskCreate : Spawn) (tasks : List Tcb) (fn : TaskFn) (prio : Nat) : Prop :=
  ∃ h, h ≠ NULL ∧ xTaskCreate tasks fn prio = some h

/-- A spawn primitive that never fails: it hands out the number of live
tasks plus one as the new handle. -/
def spawn_fresh : Spawn := fun tasks _ _ => some (tasks.length + 1)

/-! ## `error_handler` and `manage_tasks` (lines 283-358) -/

/-- `error_handler`: switch both red LEDs on, then spin forever. -/
def error_handler (s : State) : Except State State :=
  .error { s with GPIOE_ODR := HAL_GPIO_WritePin s.GPIOE_ODR (RED_LED_1 ||| RED_LED_2) true }

/-- The body shared by the four `case` arms of `manage_tasks`, which differ
only in the slot, the task function and the LED pin pair. -/
def manage_case (xTaskCreate : Spawn) (slot : Fin 4) (fn : TaskFn) (pins : Nat)
    (s : State) : Except State State :=
  if s.task_handlers slot = NULL then
    match xTaskCreate s.tasks fn LED_CTRL_TASK_PRIORITY with
    | some h =>
      .ok { s with
        tasks := s.tasks ++ [{ handle := h, code := fn, priority := LED_CTRL_TASK_PRIORITY }]
        task_handlers := Function.update s.task_handlers slot h }
    | none => error_handler s
  else
    .ok { s with
      tasks := vTaskDelete s.tasks (s.task_handlers slot)
      GPIOE_ODR := HAL_GPIO_WritePin s.GPIOE_ODR pins false
      task_handlers := Function.update s.task_handlers slot NULL }

/-- `manage_tasks(index)`: the `switch` over the four slots with its
`default` arm. -/
def manage_tasks (xTaskCreate : Spawn) (index : Nat) (s : State) : Except State State :=
  match index with
  | 0 => manage_case xTaskCreate 0 TaskFn.red_led_ctrl_task (RED_LED_1 ||| RED_LED_2) s
  | 1 => manage_case xTaskCreate 1 TaskFn.green_led_ctrl_task (GREEN_LED_1 ||| GREEN_LED_2) s
  | 2 => manage_case xTaskCreate 2 TaskFn.blue_led_ctrl_task (BLUE_LED_1 ||| BLUE_LED_2) s
  | 3 => manage_case xTaskCreate 3 TaskFn.orange_led_ctrl_task (ORANGE_LED_1 ||| ORANGE_LED_2) s
  | _ => error_handler s

/-- A succession of `manage_tasks` calls; a call that enters `error_handler`
ends the succession there. -/
def manage_tasks_seq (xTaskCreate : Spawn) : List Nat → State → Except State State
  | [], s => .ok s
  | i :: is, s =>
    match manage_tasks xTaskCreate i s with
    | .ok s' => manage_tasks_seq xTaskCreate is s'
    | .error e => .error e

/-- The task function and the LED pin pair that `manage_tasks` binds to a
slot (read off its four `case` arms). -/
def slot_task : Fin 4 → TaskFn
  | 0 => TaskFn.red_led_ctrl_task
  | 1 => TaskFn.green_led_ctrl_task
  | 2 => TaskFn.blue_led_ctrl_task
  | 3 => TaskFn.orange_led_ctrl_task

def slot_pins : Fin 4 → Nat
  | 0 => RED_LED_1 ||| RED_LED_2
  | 1 => GREEN_LED_1 ||| GREEN_LED_2
  | 2 => BLUE_LED_1 ||| BLUE_LED_2
  | 3 => ORANGE_LED_1 ||| ORANGE_LED_2

/-- The pin numbers of the two LEDs of a slot's colour, from the `#define`s
of lines 24-31 (`RED_LED_1` is `GPIO_PIN_9`, `RED_LED_2` is `GPIO_PIN_13`,
and so on). -/
def slot_pin_numbers : Fin 4 → Nat × Nat
  | 0 => (9, 13)
  | 1 => (11, 15)
  | 2 => (8, 12)
  | 3 => (10, 14)

/-! ## `read_button_state_task` (lines 175-189) -/

/-- The cursor update of lines 180-184. -/
def th_index_advance (c : Nat) : Nat :=
  if c < MAX_TASKS_NUMBER - 1 then (c + 1) % UINT32_MOD else 0

/-- One iteration of the loop of `read_button_state_task`; `pressed` is
whether `HAL_GPIO_ReadPin(GPIOA, BUTTON_PIN)` returned `GPIO_PIN_SET`. -/
def read_button_state_task_iter (xTaskCreate : Spawn) (pressed : Bool) (s : State) :
    Except State State :=
  if pressed then
    let s1 := { s with th_index := th_index_advance s.th_index }
    manage_tasks xTaskCreate s1.th_index s1
  else
    .ok s

/-- Successive iterations of `read_button_state_task`, one per button
reading; an iteration that enters `error_handler` never reaches the next. -/
def read_button_state_task_run (xTaskCreate : Spawn) : List Bool → State → Except State State
  | [], s => .ok s
  | p :: ps, s =>
    match read_button_state_task_iter xTaskCreate p s with
    | .ok s' => read_button_state_task_run xTaskCreate ps s'
    | .error e => .error e

/-- The state a computation is in, whether it returned or is spinning in
`error_handler`. -/
def final_state : Except State State → State
  | .ok s => s
  | .error s => s

/-! ## LED toggle tasks and idle hook (lines 196-245, 366-369) -/

def red_led_ctrl_task_iter (s : State) : State :=
  { s with
    GPIOE_ODR := HAL_GPIO_TogglePin s.GPIOE_ODR (RED_LED_1 ||| RED_LED_2)
    red_led_ctrl_task_profiler := uadd32 s.red_led_ctrl_task_profiler 1 }

def green_led_ctrl_task_iter (s : State) : State :=
  { s with
    GPIOE_ODR := HAL_GPIO_TogglePin s.GPIOE_ODR (GREEN_LED_1 ||| GREEN_LED_2)
    green_led_ctrl_task_profiler := uadd32 s.green_led_ctrl_task_profiler 1 }

def blue_led_ctrl_task_iter (s : State) : State :=
  { s with
    GPIOE_ODR := HAL_GPIO_TogglePin s.GPIOE_ODR (BLUE_LED_1 ||| BLUE_LED_2)
    blue_led_ctrl_task_profiler := uadd32 s.blue_led_ctrl_task_profiler 1 }

def orange_led_ctrl_task_iter (s : State) : State :=
  { s with
    GPIOE_ODR := HAL_GPIO_TogglePin s.GPIOE_ODR (ORANGE_LED_1 ||| ORANGE_LED_2)
    orange_led_ctrl_task_profiler := uadd32 s.orange_led_ctrl_task_profiler 1 }

def vApplicationIdleHook (s : State) : State :=
  { s with idle_task_profiler := uadd32 s.idle_task_profiler 1 }

/-! ## `cpu_load_calc_task` (lines 254-277) -/

/-- The local `total` of line 259. -/
def cpu_load_total (s : State) : Nat :=
  uadd32 (uadd32 (uadd32 (uadd32 (uadd32 s.red_led_ctrl_task_profiler
    s.green_led_ctrl_task_profiler) s.blue_led_ctrl_task_profiler)
    s.orange_led_ctrl_task_profiler) s.read_button_state_task_profiler)
    s.idle_task_profiler

/-- The local `useful` of line 263. -/
def cpu_load_useful (s : State) : Nat :=
  uadd32 (uadd32 (uadd32 (uadd32 s.red_led_ctrl_task_profiler
    s.green_led_ctrl_task_profiler) s.blue_led_ctrl_task_profiler)
    s.orange_led_ctrl_task_profiler) s.read_button_state_task_profiler

/-- Rounding of a rational to the nearest integer, a tie going to the even
neighbour. -/
def round_half_even (q : ℚ) : ℤ :=
  if q - (⌊q⌋ : ℚ) < 1 / 2 then ⌊q⌋
  else if 1 / 2 < q - (⌊q⌋ : ℚ) then ⌊q⌋ + 1
  else if ⌊q⌋ % 2 = 0 then ⌊q⌋ else ⌊q⌋ + 1

/-- The binary exponent of the binade of `x` in binary32: `⌊log₂ |x|⌋`, held
at `-126` for subnormal values and zero. -/
def float_exponent (x : ℚ) : ℤ := max (Int.log 2 |x|) (-126)

/-- The unit in the last place of binary32 at `x`: 24 significand bits. -/
def float_ulp (x : ℚ) : ℚ := (2 : ℚ) ^ (float_exponent x - 23)

/-- IEEE-754 binary32 rounding, to nearest with ties to even, of an exact
value. Exponent overflow is not represented: the values this program forms
from `uint32_t` operands stay far below the threshold `2 ^ 128`
(`binary32_load_lt_overflow`). -/
def round_binary32 (x : ℚ) : ℚ :=
  (round_half_even (x / float_ulp x) : ℚ) * float_ulp x

/-- Division of two finite non-negative `float` values as IEEE-754 defines
it, the quotient being rounded by `rnd`: a finite value for a non-zero
divisor, `NaN` for `0/0` and `+Inf` for `x/0` with `x > 0`. No trap is
raised. -/
def float_div (rnd : ℚ → ℚ) (x y : ℚ) : FloatVal :=
  if y = 0 then
    (if x = 0 then FloatVal.nan else FloatVal.inf)
  else
    FloatVal.finite (rnd (x / y))

/-- One iteration of the loop of `cpu_load_calc_task`, for a given rounding
`rnd` of `float` results. Line 266, `(float) 100 * useful / total`, converts
`100` and `useful` to `float`, multiplies them, converts `total` and divides,
with no test of the divisor. -/
def cpu_load_calc_task_iter_with (rnd : ℚ → ℚ) (s : State) : State :=
  let total := cpu_load_total s
  let useful := cpu_load_useful s
  { s with
    cpu_load := float_div rnd (rnd (rnd 100 * rnd (useful : ℚ))) (rnd (total : ℚ))
    red_led_ctrl_task_profiler := 0
    green_led_ctrl_task_profiler := 0
    blue_led_ctrl_task_profiler := 0
    orange_led_ctrl_task_profiler := 0
    read_button_state_task_profiler := 0
    idle_task_profiler := 0 }

/-- One iteration of the loop of `cpu_load_calc_task` as the target runs it,
in binary32. (`cpu_load_calc_task_iter_with id` is the same iteration with
floating-point rounding left aside.) -/
def cpu_load_calc_task_iter (s : State) : State :=
  cpu_load_calc_task_iter_with round_binary32 s

/-- The initial state with the six profilers set to the given values, in the
order red, green, blue, orange, button poll, idle. -/
def with_profilers (r g b o p i : Nat) : State :=
  { initial_state with
    red_led_ctrl_task_profiler := r
    green_led_ctrl_task_profiler := g
    blue_led_ctrl_task_profiler := b
    orange_led_ctrl_task_profiler := o
    read_button_state_task_profiler := p
    idle_task_profiler := i }

/-- The six profilers hold `uint32_t` values. -/
def profilers_in_range (s : State) : Prop :=
  s.red_led_ctrl_task_profiler < UINT32_MOD ∧ s.green_led_ctrl_task_profiler < UINT32_MOD ∧
  s.blue_led_ctrl_task_profiler < UINT32_MOD ∧ s.orange_led_ctrl_task_profiler < UINT32_MOD ∧
  s.read_button_state_task_profiler < UINT32_MOD ∧ s.idle_task_profiler < UINT32_MOD

/-- The sum of the six profilers, taken in the naturals. -/
def profilers_sum (s : State) : Nat :=
  s.red_led_ctrl_task_profiler + s.green_led_ctrl_task_profiler +
  s.blue_led_ctrl_task_profiler + s.orange_led_ctrl_task_profiler +
  s.read_button_state_task_profiler + s.idle_task_profiler

/-- A load value is a percentage when it is a finite number in `[0, 100]`. -/
def FloatVal.isPercent : FloatVal → Prop
  | .finite q => 0 ≤ q ∧ q ≤ 100
  | _ => False

/-- A load value is a finite number in `[lo, hi]`. -/
def FloatVal.isWithin (lo hi : ℚ) : FloatVal → Prop
  | .finite q => lo ≤ q ∧ q ≤ hi
  | _ => False

/-! ## Lemmas on `manage_tasks` -/

theorem manage_tasks_in_range (xTaskCreate : Spawn) (i : Fin 4) (s : State) :
    manage_tasks xTaskCreate i.val s =
      manage_case xTaskCreate i (slot_task i) (slot_pins i) s := by
  fin_cases i <;> rfl

theorem manage_tasks_default (xTaskCreate : Spawn) (index : Nat) (s : State)
    (h : MAX_TASKS_NUMBER ≤ index) :
    manage_tasks xTaskCreate index s = error_handler s := by
  unfold MAX_TASKS_NUMBER at h
  match index, h with
  | n + 4, _ => rfl

theorem manage_case_spawn (xTaskCreate : Spawn) (slot : Fin 4) (fn : TaskFn) (pins : Nat)
    (s : State) (h : TaskHandle) (hempty : s.task_handlers slot = NULL)
    (hspawn : xTaskCreate s.tasks fn LED_CTRL_TASK_PRIORITY = some h) :
    manage_case xTaskCreate slot fn pins s =
      .ok { s with
        tasks := s.tasks ++ [{ handle := h, code := fn, priority := LED_CTRL_TASK_PRIORITY }]
        task_handlers := Function.update s.task_handlers slot h } := by
  simp [manage_case, hempty, hspawn]

theorem manage_case_spawn_fails (xTaskCreate : Spawn) (slot : Fin 4) (fn : TaskFn)
    (pins : Nat) (s : State) (hempty : s.task_handlers slot = NULL)
    (hspawn : xTaskCreate s.tasks fn LED_CTRL_TASK_PRIORITY = none) :
    manage_case xTaskCreate slot fn pins s = error_handler s := by
  simp [manage_case, hempty, hspawn]

theorem manage_case_delete (xTaskCreate : Spawn) (slot : Fin 4) (fn : TaskFn) (pins : Nat)
    (s : State) (hocc : s.task_handlers slot ≠ NULL) :
    manage_case xTaskCreate slot fn pins s =
      .ok { s with
        tasks := vTaskDelete s.tasks (s.task_handlers slot)
        GPIOE_ODR := HAL_GPIO_WritePin s.GPIOE_ODR pins false
        task_handlers := Function.update s.task_handlers slot NULL } := by
  simp [manage_case, hocc]

/-- Resetting the pin pair of a slot clears exactly the two pins named by the
`#define`s of lines 24-31 and keeps every other pin of the port. -/
theorem writePin_reset_slot (odr : Nat) (i : Fin 4) (n : Nat) (hn : n < 16) :
    (HAL_GPIO_WritePin odr (slot_pins i) false).testBit n =
      (odr.testBit n && !(slot_pins i).testBit n) := by
  simp only [HAL_GPIO_WritePin, Bool.false_eq_true, if_false, Nat.testBit_land,
    Nat.testBit_xor]
  have h16 : (0xFFFF : Nat).testBit n = true := by
    interval_cases n <;> decide
  rw [h16]
  cases (slot_pins i).testBit n <;> simp

theorem slot_pins_testBit (i : Fin 4) (n : Nat) :
    (slot_pins i).testBit n =
      (n == (slot_pin_numbers i).1 || n == (slot_pin_numbers i).2) := by
  by_cases hn : n < 16
  · fin_cases i <;> interval_cases n <;> decide
  · have h2 : ∀ m : Nat, m < 2 ^ 16 → m.testBit n = false := by
      intro m hm
      apply Nat.testBit_lt_two_pow
      calc m < 2 ^ 16 := hm
        _ ≤ 2 ^ n := Nat.pow_le_pow_right (by decide) (by omega)
    fin_cases i
    all_goals
      simp only [slot_pins]
      rw [h2 _ (by decide)]
      simp [slot_pin_numbers]
      omega

/-- The two ways into `error_handler`: the `default` arm, or a failed spawn
into an empty slot. -/
theorem manage_tasks_error_iff (xTaskCreate : Spawn) (index : Nat) (s : State) :
    (∃ e, manage_tasks xTaskCreate index s = .error e) ↔
      (MAX_TASKS_NUMBER ≤ index ∨
        ∃ i : Fin 4, i.val = index ∧ s.task_handlers i = NULL ∧
          xTaskCreate s.tasks (slot_task i) LED_CTRL_TASK_PRIORITY = none) := by
  by_cases hr : MAX_TASKS_NUMBER ≤ index
  · simp only [hr, true_or, iff_true]
    exact ⟨_, manage_tasks_default xTaskCreate index s hr⟩
  · have hlt : index < 4 := by
      unfold MAX_TASKS_NUMBER at hr
      omega
    have hm := manage_tasks_in_range xTaskCreate ⟨index, hlt⟩ s
    simp only [] at hm
    rw [hm]
    simp only [hr, false_or]
    constructor
    · rintro ⟨e, he⟩
      refine ⟨⟨index, hlt⟩, rfl, ?_⟩
      by_cases hempty : s.task_handlers ⟨index, hlt⟩ = NULL
      · refine ⟨hempty, ?_⟩
        cases hx : xTaskCreate s.tasks (slot_task ⟨index, hlt⟩) LED_CTRL_TASK_PRIORITY with
        | none => rfl
        | some h =>
          rw [manage_case_spawn _ _ _ _ _ h hempty hx] at he
          cases he
      · rw [manage_case_delete _ _ _ _ _ hempty] at he
        cases he
    · rintro ⟨i, hi, hempty, hx⟩
      have hi' : i = ⟨index, hlt⟩ := Fin.ext hi
      subst hi'
      exact ⟨_, manage_case_spawn_fails _ _ _ _ _ hempty hx⟩

/-! ## Lifecycle manager -/

/-- C1: for a slot `index` in `[0,4)` that is empty, when the spawn
succeeds with handle `h`, one call `manage_tasks(index)` returns without
entering `error_handler`, adds the toggle task of group `index` (0 red,
1 green, 2 blue, 3 orange) to the live tasks at `LED_CTRL_TASK_PRIORITY`,
and leaves slot `index` non-empty, holding `h`. -/
theorem manage_tasks_spawns (xTaskCreate : Spawn) (s : State) (index : Fin 4)
    (h : TaskHandle) (hempty : s.task_handlers index = NULL) (hne : h ≠ NULL)
    (hspawn : xTaskCreate s.tasks (slot_task index) LED_CTRL_TASK_PRIORITY = some h) :
    (∃ s', manage_tasks xTaskCreate index.val s = .ok s' ∧
      s'.tasks = s.tasks ++
        [{ handle := h, code := slot_task index, priority := LED_CTRL_TASK_PRIORITY }] ∧
      s'.task_handlers index = h ∧ s'.task_handlers index ≠ NULL) ∧
    slot_task 0 = TaskFn.red_led_ctrl_task ∧ slot_task 1 = TaskFn.green_led_ctrl_task ∧
    slot_task 2 = TaskFn.blue_led_ctrl_task ∧ slot_task 3 = TaskFn.orange_led_ctrl_task := by
  refine ⟨?_, rfl, rfl, rfl, rfl⟩
  rw [manage_tasks_in_range, manage_case_spawn _ _ _ _ _ h hempty hspawn]
  refine ⟨_, rfl, rfl, ?_, ?_⟩
  · simp
  · simpa using hne

/-- C2: for a slot `index` in `[0,4)` that is empty, when the spawn
succeeds with handle `h`, two `manage_tasks(index)` calls in succession both
return; the first makes the new task live, the second leaves slot `index`
empty again, no live task carries `h` any more, and on port E exactly the two
pins of group `index` (red 9 and 13, green 11 and 15, blue 8 and 12, orange
10 and 14) are driven low while every other pin keeps its level. -/
theorem manage_tasks_twice (xTaskCreate : Spawn) (s : State) (index : Fin 4)
    (h : TaskHandle) (hempty : s.task_handlers index = NULL) (hne : h ≠ NULL)
    (hspawn : xTaskCreate s.tasks (slot_task index) LED_CTRL_TASK_PRIORITY = some h) :
    ∃ s1 s2, manage_tasks xTaskCreate index.val s = .ok s1 ∧
      manage_tasks xTaskCreate index.val s1 = .ok s2 ∧
      { handle := h, code := slot_task index, priority := LED_CTRL_TASK_PRIORITY } ∈ s1.tasks ∧
      s2.task_handlers index = NULL ∧
      s2.tasks = vTaskDelete s1.tasks h ∧
      (∀ t ∈ s2.tasks, t.handle ≠ h) ∧
      (∀ n, n < 16 → s2.GPIOE_ODR.testBit n =
        (s1.GPIOE_ODR.testBit n &&
          !(n == (slot_pin_numbers index).1 || n == (slot_pin_numbers index).2))) ∧
      slot_pin_numbers 0 = (9, 13) ∧ slot_pin_numbers 1 = (11, 15) ∧
      slot_pin_numbers 2 = (8, 12) ∧ slot_pin_numbers 3 = (10, 14) := by
  have h1 := manage_case_spawn xTaskCreate index (slot_task index) (slot_pins index) s h
    hempty hspawn
  have hocc : (Function.update s.task_handlers index h) index ≠ NULL := by simpa using hne
  have h2 := manage_case_delete xTaskCreate index (slot_task index) (slot_pins index)
    { s with
      tasks := s.tasks ++
        [{ handle := h, code := slot_task index, priority := LED_CTRL_TASK_PRIORITY }]
      task_handlers := Function.update s.task_handlers index h } hocc
  refine ⟨_, _, (manage_tasks_in_range xTaskCreate index s).trans h1,
    (manage_tasks_in_range xTaskCreate index _).trans h2, ?_, ?_, ?_, ?_, ?_,
    rfl, rfl, rfl, rfl⟩
  · simp
  · simp
  · simp
  · intro t ht
    simp [vTaskDelete] at ht
    rcases ht with ⟨_, ht⟩
    exact ht
  · intro n hn
    simp only []
    rw [writePin_reset_slot _ _ _ hn, slot_pins_testBit]

/-- C3: `manage_tasks(index)` ends in `error_handler` exactly when
`index` is outside `[0,4)`, or slot `index` is empty and the spawn fails. In
particular `manage_tasks(7)` ends there, and an out-of-range call is just
`error_handler`: the live tasks and every slot are as before. -/
theorem manage_tasks_fault_iff (xTaskCreate : Spawn) (index : Nat) (s : State) :
    ((∃ e, manage_tasks xTaskCreate index s = .error e) ↔
      (MAX_TASKS_NUMBER ≤ index ∨
        ∃ i : Fin 4, i.val = index ∧ s.task_handlers i = NULL ∧
          xTaskCreate s.tasks (slot_task i) LED_CTRL_TASK_PRIORITY = none)) ∧
    (∃ e, manage_tasks xTaskCreate 7 s = .error e) ∧
    (MAX_TASKS_NUMBER ≤ index →
      ∃ e, manage_tasks xTaskCreate index s = .error e ∧ e.tasks = s.tasks ∧
        e.task_handlers = s.task_handlers) := by
  refine ⟨manage_tasks_error_iff xTaskCreate index s, ⟨_, rfl⟩, ?_⟩
  intro hr
  exact ⟨_, manage_tasks_default xTaskCreate index s hr, rfl, rfl⟩

/-- With every spawn succeeding, an in-range `manage_tasks` call returns,
keeps every other slot and flips the occupancy of its own. -/
theorem manage_tasks_flip (xTaskCreate : Spawn)
    (hx : ∀ tasks fn prio, SpawnSucceeds xTaskCreate tasks fn prio) (i : Fin 4) (s : State) :
    ∃ s', manage_tasks xTaskCreate i.val s = .ok s' ∧
      (∀ j : Fin 4, j ≠ i → s'.task_handlers j = s.task_handlers j) ∧
      (s'.task_handlers i ≠ NULL ↔ s.task_handlers i = NULL) := by
  rw [manage_tasks_in_range]
  by_cases hempty : s.task_handlers i = NULL
  · obtain ⟨h, hne, hsp⟩ := hx s.tasks (slot_task i) LED_CTRL_TASK_PRIORITY
    rw [manage_case_spawn _ _ _ _ _ h hempty hsp]
    refine ⟨_, rfl, ?_, ?_⟩
    · intro j hj
      simp [Function.update_noteq hj]
    · simp only [Function.update_same, hempty, iff_true]
      exact hne
  · rw [manage_case_delete _ _ _ _ _ hempty]
    refine ⟨_, rfl, ?_, ?_⟩
    · intro j hj
      simp [Function.update_noteq hj]
    · simp [hempty]

theorem manage_tasks_seq_flip (xTaskCreate : Spawn)
    (hx : ∀ tasks fn prio, SpawnSucceeds xTaskCreate tasks fn prio) :
    ∀ (l : List Nat), (∀ i ∈ l, i < MAX_TASKS_NUMBER) → ∀ s : State,
      ∃ s', manage_tasks_seq xTaskCreate l s = .ok s' ∧
        ∀ j : Fin 4, (s'.task_handlers j ≠ NULL ↔
          (s.task_handlers j ≠ NULL ↔ ¬ Odd (l.count j.val))) := by
  intro l
  induction l with
  | nil =>
    intro _ s
    exact ⟨s, rfl, fun j => by simp⟩
  | cons i is ih =>
    intro hl s
    have hi : i < 4 := hl i (List.mem_cons_self i is)
    obtain ⟨s1, h1, hoth, hown⟩ := manage_tasks_flip xTaskCreate hx ⟨i, hi⟩ s
    simp only [] at h1
    obtain ⟨s2, h2, hpar⟩ := ih (fun k hk => hl k (List.mem_cons_of_mem i hk)) s1
    refine ⟨s2, ?_, ?_⟩
    · simp only [manage_tasks_seq, h1]
      exact h2
    · intro j
      rw [hpar j]
      by_cases hji : j = ⟨i, hi⟩
      · subst hji
        have hc : (i :: is).count i = is.count i + 1 := by simp
        simp only [hc, Nat.odd_add_one]
        rw [hown]
        tauto
      · have hne : i ≠ j.val := fun h => hji (Fin.ext h.symm)
        have hc : (i :: is).count j.val = is.count j.val := by
          simp [List.count_cons, hne]
        rw [hc, hoth j hji]

/-- C4: from a slot table that is all empty, with every spawn
succeeding, any finite succession of `manage_tasks` calls with indices in
`[0,4)` returns each time, and afterwards slot `j` is occupied exactly when
`j` occurs an odd number of times in the succession; a call changes no slot
but its own; and the succession 0,1,2,3,0 leaves slot 0 empty and slots 1, 2
and 3 occupied. -/
theorem manage_tasks_seq_parity (xTaskCreate : Spawn)
    (hx : ∀ tasks fn prio, SpawnSucceeds xTaskCreate tasks fn prio) (s : State)
    (hs : ∀ j, s.task_handlers j = NULL) (l : List Nat)
    (hl : ∀ i ∈ l, i < MAX_TASKS_NUMBER) :
    (∃ s', manage_tasks_seq xTaskCreate l s = .ok s' ∧
      ∀ j : Fin 4, (s'.task_handlers j ≠ NULL ↔ Odd (l.count j.val))) ∧
    (∀ (t : State) (i j : Fin 4), j ≠ i →
      ∃ t', manage_tasks xTaskCreate i.val t = .ok t' ∧
        t'.task_handlers j = t.task_handlers j) ∧
    (∃ s5, manage_tasks_seq xTaskCreate [0, 1, 2, 3, 0] s = .ok s5 ∧
      s5.task_handlers 0 = NULL ∧ s5.task_handlers 1 ≠ NULL ∧
      s5.task_handlers 2 ≠ NULL ∧ s5.task_handlers 3 ≠ NULL) := by
  refine ⟨?_, ?_, ?_⟩
  · obtain ⟨s', hrun, hpar⟩ := manage_tasks_seq_flip xTaskCreate hx l hl s
    refine ⟨s', hrun, fun j => ?_⟩
    rw [hpar j]
    simp [hs j]
  · intro t i j hji
    obtain ⟨t', ht, hoth, _⟩ := manage_tasks_flip xTaskCreate hx i t
    exact ⟨t', ht, hoth j hji⟩
  · obtain ⟨s5, hrun, hpar⟩ := manage_tasks_seq_flip xTaskCreate hx [0, 1, 2, 3, 0]
      (by unfold MAX_TASKS_NUMBER; simp) s
    refine ⟨s5, hrun, ?_, ?_, ?_, ?_⟩
    · have := hpar 0
      simp [hs] at this
      exact this
    · have := hpar 1
      simp [hs] at this
      exact this
    · have := hpar 2
      simp [hs] at this
      exact this
    · have h3 : List.count ((3 : Fin 4) : Nat) [0, 1, 2, 3, 0] = 1 := by decide
      have := hpar 3
      rw [h3] at this
      simp [hs] at this
      exact this

/-! ## Button poll loop -/

/-- Whether `manage_case` returns or ends in `error_handler`, it leaves the
cursor and the poll task's profiler as they were. -/
theorem manage_case_frame (xTaskCreate : Spawn) (slot : Fin 4) (fn : TaskFn) (pins : Nat)
    (s : State) :
    (final_state (manage_case xTaskCreate slot fn pins s)).th_index = s.th_index ∧
    (final_state (manage_case xTaskCreate slot fn pins s)).read_button_state_task_profiler =
      s.read_button_state_task_profiler := by
  unfold manage_case
  by_cases hempty : s.task_handlers slot = NULL
  · cases hx : xTaskCreate s.tasks fn LED_CTRL_TASK_PRIORITY <;>
      simp [hempty, final_state, error_handler]
  · simp [hempty, final_state]

theorem manage_tasks_frame (xTaskCreate : Spawn) (index : Nat) (s : State) :
    (final_state (manage_tasks xTaskCreate index s)).th_index = s.th_index ∧
    (final_state (manage_tasks xTaskCreate index s)).read_button_state_task_profiler =
      s.read_button_state_task_profiler := by
  by_cases hr : MAX_TASKS_NUMBER ≤ index
  · rw [manage_tasks_default _ _ _ hr]
    simp [final_state, error_handler]
  · have hlt : index < 4 := by
      unfold MAX_TASKS_NUMBER at hr
      omega
    have hm := manage_tasks_in_range xTaskCreate ⟨index, hlt⟩ s
    simp only [] at hm
    rw [hm]
    exact manage_case_frame _ _ _ _ _

theorem th_index_advance_lt (c : Nat) : th_index_advance c < MAX_TASKS_NUMBER := by
  unfold th_index_advance MAX_TASKS_NUMBER UINT32_MOD
  split_ifs with h
  · omega
  · omega

theorem th_index_advance_eq (c : Nat) (hc : c < MAX_TASKS_NUMBER) :
    th_index_advance c = (c + 1) % MAX_TASKS_NUMBER := by
  unfold th_index_advance MAX_TASKS_NUMBER UINT32_MOD
  unfold MAX_TASKS_NUMBER at hc
  interval_cases c <;> rfl

theorem read_button_state_task_iter_th_index (xTaskCreate : Spawn) (pressed : Bool)
    (s : State) :
    (final_state (read_button_state_task_iter xTaskCreate pressed s)).th_index =
      if pressed then th_index_advance s.th_index else s.th_index := by
  cases pressed
  · simp [read_button_state_task_iter, final_state]
  · simp only [read_button_state_task_iter, if_true]
    exact (manage_tasks_frame xTaskCreate _ _).1

theorem read_button_state_task_run_cursor (xTaskCreate : Spawn) :
    ∀ (polls : List Bool) (s s' : State), s.th_index < MAX_TASKS_NUMBER →
      read_button_state_task_run xTaskCreate polls s = .ok s' →
      s'.th_index = (s.th_index + polls.count true) % MAX_TASKS_NUMBER := by
  intro polls
  induction polls with
  | nil =>
    intro s s' hlt hrun
    simp only [read_button_state_task_run, Except.ok.injEq] at hrun
    subst hrun
    simpa using (Nat.mod_eq_of_lt hlt).symm
  | cons p ps ih =>
    intro s s' hlt hrun
    have hth := read_button_state_task_iter_th_index xTaskCreate p s
    cases hit : read_button_state_task_iter xTaskCreate p s with
    | error e => simp [read_button_state_task_run, hit] at hrun
    | ok s1 =>
      simp only [read_button_state_task_run, hit] at hrun
      rw [hit] at hth
      simp only [final_state] at hth
      cases p
      · simp only [Bool.false_eq_true, if_false] at hth
        have := ih s1 s' (hth ▸ hlt) hrun
        rw [this, hth]
        simp
      · simp only [if_true] at hth
        have := ih s1 s' (hth ▸ th_index_advance_lt _) hrun
        rw [this, hth, th_index_advance_eq _ hlt]
        simp only [List.count_cons_self]
        unfold MAX_TASKS_NUMBER
        omega

theorem read_button_state_task_run_lt (xTaskCreate : Spawn) :
    ∀ (polls : List Bool) (s : State), s.th_index < MAX_TASKS_NUMBER →
      (final_state (read_button_state_task_run xTaskCreate polls s)).th_index <
        MAX_TASKS_NUMBER := by
  intro polls
  induction polls with
  | nil =>
    intro s hlt
    simpa [read_button_state_task_run, final_state] using hlt
  | cons p ps ih =>
    intro s hlt
    have hth := read_button_state_task_iter_th_index xTaskCreate p s
    have hlt1 : (final_state (read_button_state_task_iter xTaskCreate p s)).th_index <
        MAX_TASKS_NUMBER := by
      rw [hth]
      split_ifs
      · exact th_index_advance_lt _
      · exact hlt
    cases hit : read_button_state_task_iter xTaskCreate p s with
    | error e =>
      rw [hit] at hlt1
      simpa [read_button_state_task_run, hit, final_state] using hlt1
    | ok s1 =>
      rw [hit] at hlt1
      simp only [read_button_state_task_run, hit]
      exact ih s1 hlt1

/-- C8: on an active poll `read_button_state_task` replaces a cursor
`c` in `[0,4)` by `(c + 1) mod 4`, whether or not the `manage_tasks` call that
follows returns; four such updates bring every `c` in `[0,4)` back to
itself. -/
theorem th_index_advance_cycle (c : Nat) (hc : c < MAX_TASKS_NUMBER) :
    th_index_advance c = (c + 1) % MAX_TASKS_NUMBER ∧
    (∀ (xTaskCreate : Spawn) (s : State), s.th_index = c →
      (final_state (read_button_state_task_iter xTaskCreate true s)).th_index =
        (c + 1) % MAX_TASKS_NUMBER) ∧
    th_index_advance (th_index_advance (th_index_advance (th_index_advance c))) = c ∧
    th_index_advance^[MAX_TASKS_NUMBER] c = c := by
  refine ⟨th_index_advance_eq c hc, ?_, ?_, ?_⟩
  · intro xTaskCreate s hs
    rw [read_button_state_task_iter_th_index, hs]
    exact th_index_advance_eq c hc
  · unfold MAX_TASKS_NUMBER at hc
    interval_cases c <;> rfl
  · unfold MAX_TASKS_NUMBER at hc
    interval_cases c <;> rfl

/-- C10: let a run of `read_button_state_task` start with
`th_index = 0` and have gone through the button readings `polls` without
ending in `error_handler`. Then the cursor is the number of active polls so
far modulo 4; the next active poll, the `k`-th, is exactly one
`manage_tasks` call, made with the cursor and index both `k mod 4`, and it can
end in `error_handler` only through a failed spawn into an empty slot, never
through the `default` arm; an inactive poll returns the state as it was; the
first press manages slot 1; and the cursor is below 4 in every state a run
reaches, halted ones included. -/
theorem read_button_state_task_round_robin (xTaskCreate : Spawn) (s0 : State)
    (h0 : s0.th_index = 0) (polls : List Bool) (s : State)
    (hrun : read_button_state_task_run xTaskCreate polls s0 = .ok s) :
    s.th_index = polls.count true % MAX_TASKS_NUMBER ∧
    read_button_state_task_iter xTaskCreate true s =
      manage_tasks xTaskCreate ((polls.count true + 1) % MAX_TASKS_NUMBER)
        { s with th_index := (polls.count true + 1) % MAX_TASKS_NUMBER } ∧
    (polls.count true + 1) % MAX_TASKS_NUMBER < MAX_TASKS_NUMBER ∧
    (∀ e, read_button_state_task_iter xTaskCreate true s = .error e →
      ∃ i : Fin 4, i.val = (polls.count true + 1) % MAX_TASKS_NUMBER ∧
        s.task_handlers i = NULL ∧
        xTaskCreate s.tasks (slot_task i) LED_CTRL_TASK_PRIORITY = none) ∧
    read_button_state_task_iter xTaskCreate false s = .ok s ∧
    read_button_state_task_iter xTaskCreate true s0 =
      manage_tasks xTaskCreate 1 { s0 with th_index := 1 } ∧
    (∀ polls' : List Bool,
      (final_state (read_button_state_task_run xTaskCreate polls' s0)).th_index <
        MAX_TASKS_NUMBER) := by
  have hlt0 : s0.th_index < MAX_TASKS_NUMBER := by
    rw [h0]
    decide
  have hcur : s.th_index = polls.count true % MAX_TASKS_NUMBER := by
    have := read_button_state_task_run_cursor xTaskCreate polls s0 s hlt0 hrun
    rw [this, h0, Nat.zero_add]
  have hlt : s.th_index < MAX_TASKS_NUMBER := by
    rw [hcur]
    exact Nat.mod_lt _ (by decide)
  have hadv : th_index_advance s.th_index = (polls.count true + 1) % MAX_TASKS_NUMBER := by
    rw [th_index_advance_eq _ hlt, hcur]
    unfold MAX_TASKS_NUMBER
    omega
  have hiter : read_button_state_task_iter xTaskCreate true s =
      manage_tasks xTaskCreate ((polls.count true + 1) % MAX_TASKS_NUMBER)
        { s with th_index := (polls.count true + 1) % MAX_TASKS_NUMBER } := by
    simp only [read_button_state_task_iter, if_true, hadv]
  have hmod : (polls.count true + 1) % MAX_TASKS_NUMBER < MAX_TASKS_NUMBER :=
    Nat.mod_lt _ (by decide)
  refine ⟨hcur, hiter, hmod, ?_, rfl, ?_, ?_⟩
  · intro e he
    rw [hiter] at he
    rcases (manage_tasks_error_iff xTaskCreate _ _).1 ⟨e, he⟩ with hge | ⟨i, hi, hempty, hx⟩
    · exact absurd hmod (Nat.not_lt.mpr hge)
    · exact ⟨i, hi, hempty, hx⟩
  · simp only [read_button_state_task_iter, if_true, h0]
    rfl
  · intro polls'
    exact read_button_state_task_run_lt xTaskCreate polls' s0 hlt0

/-! ## Binary32 rounding -/

theorem round_half_even_le_add_half (q : ℚ) : (round_half_even q : ℚ) ≤ q + 1 / 2 := by
  have h1 := Int.floor_le q
  have h2 := Int.lt_floor_add_one q
  unfold round_half_even
  split_ifs with ha hb hc
  · linarith
  · push_cast; linarith
  · linarith
  · push_cast; linarith

theorem round_half_even_ge_sub_half (q : ℚ) : q - 1 / 2 ≤ (round_half_even q : ℚ) := by
  have h1 := Int.floor_le q
  have h2 := Int.lt_floor_add_one q
  unfold round_half_even
  split_ifs with ha hb hc
  · linarith
  · push_cast; linarith
  · linarith
  · push_cast; linarith

theorem round_half_even_intCast (m : ℤ) : round_half_even (m : ℚ) = m := by
  unfold round_half_even
  simp

theorem round_half_even_le_of_le (q : ℚ) (m : ℤ) (h : q ≤ (m : ℚ)) : round_half_even q ≤ m := by
  rcases eq_or_lt_of_le h with heq | hlt
  · rw [heq, round_half_even_intCast]
  · have hf : ⌊q⌋ < m := by
      have := Int.floor_le q
      exact_mod_cast lt_of_le_of_lt this hlt
    unfold round_half_even
    split_ifs <;> omega

theorem round_half_even_ge_of_le (q : ℚ) (m : ℤ) (h : (m : ℚ) ≤ q) : m ≤ round_half_even q := by
  have hf : m ≤ ⌊q⌋ := Int.le_floor.mpr h
  unfold round_half_even
  split_ifs <;> omega

theorem round_half_even_mono {p q : ℚ} (h : p ≤ q) : round_half_even p ≤ round_half_even q := by
  have hfl : ⌊p⌋ ≤ ⌊q⌋ := Int.floor_mono h
  rcases eq_or_lt_of_le hfl with heq | hlt
  · unfold round_half_even
    rw [heq]
    split_ifs <;> first | omega | (exfalso; linarith)
  · have h1 : round_half_even p ≤ ⌊p⌋ + 1 := by
      unfold round_half_even
      split_ifs <;> omega
    have h2 : ⌊q⌋ ≤ round_half_even q := by
      unfold round_half_even
      split_ifs <;> omega
    omega

theorem round_half_even_eq_of_near (q : ℚ) (n : ℤ) (h1 : (n : ℚ) - 1 / 2 < q)
    (h2 : q < (n : ℚ) + 1 / 2) : round_half_even q = n := by
  have ha := round_half_even_le_add_half q
  have hb := round_half_even_ge_sub_half q
  have hc : (round_half_even q : ℚ) < (n : ℚ) + 1 := by linarith
  have hd : (n : ℚ) - 1 < (round_half_even q : ℚ) := by linarith
  have hc' : round_half_even q < n + 1 := by exact_mod_cast hc
  have hd' : n - 1 < round_half_even q := by exact_mod_cast hd
  omega

theorem round_half_even_tie (n : ℤ) :
    round_half_even ((n : ℚ) + 1 / 2) = if n % 2 = 0 then n else n + 1 := by
  have hf : ⌊(n : ℚ) + 1 / 2⌋ = n := by
    rw [Int.floor_eq_iff]
    constructor <;> linarith
  unfold round_half_even
  rw [hf]
  have e : (n : ℚ) + 1 / 2 - (n : ℚ) = 1 / 2 := by ring
  rw [e]
  simp

theorem float_ulp_pos (x : ℚ) : 0 < float_ulp x := by
  unfold float_ulp
  positivity

theorem float_exponent_eq (x : ℚ) (e : ℤ) (he : -126 ≤ e) (hlo : (2 : ℚ) ^ e ≤ |x|)
    (hhi : |x| < (2 : ℚ) ^ (e + 1)) : float_exponent x = e := by
  have hpos : 0 < |x| := lt_of_lt_of_le (by positivity) hlo
  have h1 : e ≤ Int.log 2 |x| := by
    rw [← Int.zpow_le_iff_le_log (by decide) hpos]
    simpa using hlo
  have h2 : Int.log 2 |x| < e + 1 := by
    rw [← Int.lt_zpow_iff_log_lt (by decide) hpos]
    simpa using hhi
  unfold float_exponent
  omega

theorem float_exponent_mono {x y : ℚ} (hx : 0 < x) (hxy : x ≤ y) :
    float_exponent x ≤ float_exponent y := by
  unfold float_exponent
  have hy : 0 < y := lt_of_lt_of_le hx hxy
  rw [abs_of_pos hx, abs_of_pos hy]
  exact max_le_max (Int.log_mono_right hx hxy) le_rfl

theorem round_binary32_zero : round_binary32 0 = 0 := by
  unfold round_binary32
  have : round_half_even ((0 : ℚ) / float_ulp 0) = 0 := by
    rw [zero_div]
    exact_mod_cast round_half_even_intCast 0
  rw [this]
  simp

theorem round_binary32_nonneg {x : ℚ} (hx : 0 ≤ x) : 0 ≤ round_binary32 x := by
  unfold round_binary32
  have hq : ((0 : ℤ) : ℚ) ≤ x / float_ulp x := by
    have := div_nonneg hx (le_of_lt (float_ulp_pos x))
    simpa using this
  have := round_half_even_ge_of_le _ 0 hq
  have h0 : (0 : ℚ) ≤ (round_half_even (x / float_ulp x) : ℚ) := by exact_mod_cast this
  exact mul_nonneg h0 (le_of_lt (float_ulp_pos x))

/-- Rounding never crosses a multiple of the unit in the last place. -/
theorem round_binary32_le_of_le {x y : ℚ} (m : ℤ) (hy : y = (m : ℚ) * float_ulp x)
    (hxy : x ≤ y) : round_binary32 x ≤ y := by
  have hu := float_ulp_pos x
  have hq : x / float_ulp x ≤ (m : ℚ) := by
    rw [div_le_iff₀ hu, ← hy]
    exact hxy
  have := round_half_even_le_of_le _ m hq
  have h' : (round_half_even (x / float_ulp x) : ℚ) ≤ (m : ℚ) := by exact_mod_cast this
  unfold round_binary32
  rw [hy]
  exact mul_le_mul_of_nonneg_right h' (le_of_lt hu)

theorem round_binary32_ge_of_le {x y : ℚ} (m : ℤ) (hy : y = (m : ℚ) * float_ulp x)
    (hxy : y ≤ x) : y ≤ round_binary32 x := by
  have hu := float_ulp_pos x
  have hq : (m : ℚ) ≤ x / float_ulp x := by
    rw [le_div_iff₀ hu, ← hy]
    exact hxy
  have := round_half_even_ge_of_le _ m hq
  have h' : (m : ℚ) ≤ (round_half_even (x / float_ulp x) : ℚ) := by exact_mod_cast this
  unfold round_binary32
  rw [hy]
  exact mul_le_mul_of_nonneg_right h' (le_of_lt hu)

theorem round_binary32_eq (x : ℚ) (e n : ℤ) (he : -126 ≤ e) (hlo : (2 : ℚ) ^ e ≤ |x|)
    (hhi : |x| < (2 : ℚ) ^ (e + 1))
    (hn : round_half_even (x / (2 : ℚ) ^ (e - 23)) = n) :
    round_binary32 x = (n : ℚ) * (2 : ℚ) ^ (e - 23) := by
  unfold round_binary32 float_ulp
  rw [float_exponent_eq x e he hlo hhi, hn]

/-- A value between two powers of two rounds to a value between them. -/
theorem two_zpow_exponent_le_round {x : ℚ} (hx : 0 < x)
    (hn : (2 : ℚ) ^ (-126 : ℤ) ≤ x) :
    (2 : ℚ) ^ float_exponent x ≤ round_binary32 x ∧ (2 : ℚ) ^ float_exponent x ≤ x := by
  have hlog : (-126 : ℤ) ≤ Int.log 2 |x| := by
    rw [abs_of_pos hx, ← Int.zpow_le_iff_le_log (by decide) hx]
    simpa using hn
  have hexp : float_exponent x = Int.log 2 |x| := by
    unfold float_exponent
    omega
  have hle : (2 : ℚ) ^ float_exponent x ≤ x := by
    rw [hexp, abs_of_pos hx]
    simpa using Int.zpow_log_le_self (b := 2) (r := x) (by decide) hx
  refine ⟨?_, hle⟩
  apply round_binary32_ge_of_le ((2 : ℤ) ^ 23) _ hle
  unfold float_ulp
  have hs : (2 : ℚ) ^ float_exponent x =
      (2 : ℚ) ^ (23 : ℤ) * (2 : ℚ) ^ (float_exponent x - 23) := by
    rw [← zpow_add₀ (by norm_num)]
    congr 1
    omega
  rw [hs]
  norm_num

theorem lt_two_zpow_exponent_succ (x : ℚ) : |x| < (2 : ℚ) ^ (float_exponent x + 1) := by
  have h1 : |x| < ((2 : ℕ) : ℚ) ^ (Int.log 2 |x| + 1) :=
    Int.lt_zpow_succ_log_self (by decide) |x|
  have h2 : ((2 : ℕ) : ℚ) ^ (Int.log 2 |x| + 1) ≤ (2 : ℚ) ^ (float_exponent x + 1) := by
    simp only [Nat.cast_ofNat]
    apply zpow_le_zpow_right₀ (by norm_num)
    unfold float_exponent
    omega
  exact lt_of_lt_of_le h1 h2

theorem round_binary32_le_two_zpow {x : ℚ} (hx : 0 < x) :
    round_binary32 x ≤ (2 : ℚ) ^ (float_exponent x + 1) := by
  have h := lt_two_zpow_exponent_succ x
  rw [abs_of_pos hx] at h
  apply round_binary32_le_of_le ((2 : ℤ) ^ 24) _ (le_of_lt h)
  unfold float_ulp
  have hs : (2 : ℚ) ^ (float_exponent x + 1) =
      (2 : ℚ) ^ (24 : ℤ) * (2 : ℚ) ^ (float_exponent x - 23) := by
    rw [← zpow_add₀ (by norm_num)]
    congr 1
    omega
  rw [hs]
  norm_num

theorem round_binary32_mono {x y : ℚ} (hx : 0 < x) (hxy : x ≤ y) :
    round_binary32 x ≤ round_binary32 y := by
  have hy : 0 < y := lt_of_lt_of_le hx hxy
  have hexp := float_exponent_mono hx hxy
  rcases eq_or_lt_of_le hexp with heq | hlt
  · have hu : float_ulp x = float_ulp y := by
      unfold float_ulp
      rw [heq]
    unfold round_binary32
    rw [hu]
    have hq : x / float_ulp y ≤ y / float_ulp y :=
      div_le_div_of_nonneg_right hxy (le_of_lt (float_ulp_pos y))
    have := round_half_even_mono hq
    have h' : (round_half_even (x / float_ulp y) : ℚ) ≤
        (round_half_even (y / float_ulp y) : ℚ) := by exact_mod_cast this
    exact mul_le_mul_of_nonneg_right h' (le_of_lt (float_ulp_pos y))
  · have hylog : float_exponent y = Int.log 2 |y| := by
      have h126 : -126 ≤ float_exponent x := by
        unfold float_exponent
        exact le_max_right _ _
      unfold float_exponent at hlt ⊢
      omega
    have hny : (2 : ℚ) ^ (-126 : ℤ) ≤ y := by
      have h126 : (-126 : ℤ) ≤ Int.log 2 y := by
        have h126x : -126 ≤ float_exponent x := by
          unfold float_exponent
          exact le_max_right _ _
        rw [abs_of_pos hy] at hylog
        omega
      have := (Int.zpow_le_iff_le_log (R := ℚ) (b := 2) (by decide) hy).2 h126
      simpa using this
    have h1 := round_binary32_le_two_zpow hx
    have h2 := (two_zpow_exponent_le_round hy hny).1
    have h3 : (2 : ℚ) ^ (float_exponent x + 1) ≤ (2 : ℚ) ^ float_exponent y :=
      zpow_le_zpow_right₀ (by norm_num) (by omega)
    linarith

/-- A value of the form `m * 2 ^ k` whose `k` is at least the exponent of the
last place of `x` is a multiple of that unit, so rounding `x` cannot cross
it. -/
theorem round_binary32_le_of_le_zpow {x y : ℚ} (m k : ℤ) (hy : y = (m : ℚ) * (2 : ℚ) ^ k)
    (hk : float_exponent x - 23 ≤ k) (hxy : x ≤ y) : round_binary32 x ≤ y := by
  apply round_binary32_le_of_le (m * (2 : ℤ) ^ (k - (float_exponent x - 23)).toNat) _ hxy
  have hj : ((k - (float_exponent x - 23)).toNat : ℤ) = k - (float_exponent x - 23) :=
    Int.toNat_of_nonneg (by omega)
  unfold float_ulp
  push_cast
  rw [hy, mul_assoc, ← zpow_natCast, hj, ← zpow_add₀ (by norm_num)]
  congr 2
  omega

theorem float_ulp_half (x : ℚ) :
    float_ulp x / 2 = (2 : ℚ) ^ float_exponent x * (2 : ℚ) ^ (-24 : ℤ) := by
  have h : float_ulp x = (2 : ℚ) ^ float_exponent x * (2 : ℚ) ^ (-23 : ℤ) := by
    unfold float_ulp
    rw [← zpow_add₀ (by norm_num)]
    congr 1
  have h4 : (2 : ℚ) ^ (-23 : ℤ) = 2 * (2 : ℚ) ^ (-24 : ℤ) := by norm_num
  rw [h, h4]
  ring

theorem round_binary32_le_mul {x : ℚ} (hx : 0 < x) (hn : (2 : ℚ) ^ (-126 : ℤ) ≤ x) :
    round_binary32 x ≤ x * (1 + (2 : ℚ) ^ (-24 : ℤ)) := by
  have hu := float_ulp_pos x
  have hle := (two_zpow_exponent_le_round hx hn).2
  have h1 := round_half_even_le_add_half (x / float_ulp x)
  have h2 : round_binary32 x ≤ (x / float_ulp x + 1 / 2) * float_ulp x := by
    unfold round_binary32
    exact mul_le_mul_of_nonneg_right h1 (le_of_lt hu)
  have h3 : (x / float_ulp x + 1 / 2) * float_ulp x = x + float_ulp x / 2 := by
    field_simp
    ring
  rw [h3, float_ulp_half] at h2
  have h5 : (0 : ℚ) < (2 : ℚ) ^ (-24 : ℤ) := by positivity
  have h6 : (2 : ℚ) ^ float_exponent x * (2 : ℚ) ^ (-24 : ℤ) ≤ x * (2 : ℚ) ^ (-24 : ℤ) :=
    mul_le_mul_of_nonneg_right hle (le_of_lt h5)
  have h7 : x * (1 + (2 : ℚ) ^ (-24 : ℤ)) = x + x * (2 : ℚ) ^ (-24 : ℤ) := by ring
  rw [h7]
  exact le_trans h2 (by linarith)

theorem round_binary32_ge_mul {x : ℚ} (hx : 0 < x) (hn : (2 : ℚ) ^ (-126 : ℤ) ≤ x) :
    x * (1 - (2 : ℚ) ^ (-24 : ℤ)) ≤ round_binary32 x := by
  have hu := float_ulp_pos x
  have hle := (two_zpow_exponent_le_round hx hn).2
  have h1 := round_half_even_ge_sub_half (x / float_ulp x)
  have h2 : (x / float_ulp x - 1 / 2) * float_ulp x ≤ round_binary32 x := by
    unfold round_binary32
    exact mul_le_mul_of_nonneg_right h1 (le_of_lt hu)
  have h3 : (x / float_ulp x - 1 / 2) * float_ulp x = x - float_ulp x / 2 := by
    field_simp
    ring
  rw [h3, float_ulp_half] at h2
  have h5 : (0 : ℚ) < (2 : ℚ) ^ (-24 : ℤ) := by positivity
  have h6 : (2 : ℚ) ^ float_exponent x * (2 : ℚ) ^ (-24 : ℤ) ≤ x * (2 : ℚ) ^ (-24 : ℤ) :=
    mul_le_mul_of_nonneg_right hle (le_of_lt h5)
  have h7 : x * (1 - (2 : ℚ) ^ (-24 : ℤ)) = x - x * (2 : ℚ) ^ (-24 : ℤ) := by ring
  rw [h7]
  exact le_trans (by linarith) h2

theorem round_binary32_pos {x : ℚ} (hx : 0 < x) (hn : (2 : ℚ) ^ (-126 : ℤ) ≤ x) :
    0 < round_binary32 x :=
  lt_of_lt_of_le (by positivity) (two_zpow_exponent_le_round hx hn).1

theorem round_binary32_ge_min_normal {x : ℚ} (hx : 0 < x)
    (hn : (2 : ℚ) ^ (-126 : ℤ) ≤ x) : (2 : ℚ) ^ (-126 : ℤ) ≤ round_binary32 x := by
  refine le_trans ?_ (two_zpow_exponent_le_round hx hn).1
  apply zpow_le_zpow_right₀ (by norm_num)
  unfold float_exponent
  exact le_max_right _ _

theorem round_binary32_hundred : round_binary32 100 = 100 := by
  rw [round_binary32_eq 100 6 13107200 (by norm_num) (by norm_num [abs_of_pos])
    (by norm_num [abs_of_pos])]
  · norm_num
  · have : (100 : ℚ) / (2 : ℚ) ^ ((6 : ℤ) - 23) = ((13107200 : ℤ) : ℚ) := by norm_num
    rw [this, round_half_even_intCast]

theorem one_le_natCast_normal (n : ℕ) (hn : n ≠ 0) :
    (0 : ℚ) < (n : ℚ) ∧ (2 : ℚ) ^ (-126 : ℤ) ≤ (n : ℚ) := by
  have h1 : (1 : ℚ) ≤ (n : ℚ) := by exact_mod_cast Nat.one_le_iff_ne_zero.mpr hn
  have h2 : (2 : ℚ) ^ (-126 : ℤ) ≤ 1 := by
    apply zpow_le_one_of_nonpos₀ (by norm_num) (by norm_num)
  constructor <;> linarith

/-- The value that line 266 computes in binary32 for `useful ≤ total`,
`total ≠ 0`: the divisor is non-zero and the quotient lies between `0` and
the successor of `100`. -/
theorem binary32_load_bounds (u t : ℕ) (hut : u ≤ t) (ht : t ≠ 0) :
    round_binary32 (t : ℚ) ≠ 0 ∧
    0 ≤ round_binary32
      (round_binary32 (round_binary32 100 * round_binary32 (u : ℚ)) / round_binary32 (t : ℚ)) ∧
    round_binary32
      (round_binary32 (round_binary32 100 * round_binary32 (u : ℚ)) / round_binary32 (t : ℚ))
      ≤ 100 + (2 : ℚ) ^ (-17 : ℤ) := by
  obtain ⟨htpos, htn⟩ := one_le_natCast_normal t ht
  have hT : 0 < round_binary32 (t : ℚ) := round_binary32_pos htpos htn
  refine ⟨ne_of_gt hT, ?_, ?_⟩
  · apply round_binary32_nonneg
    apply div_nonneg _ (le_of_lt hT)
    apply round_binary32_nonneg
    rw [round_binary32_hundred]
    exact mul_nonneg (by norm_num) (round_binary32_nonneg (Nat.cast_nonneg u))
  · rw [round_binary32_hundred]
    by_cases hu : u = 0
    · subst hu
      simp only [Nat.cast_zero, round_binary32_zero, mul_zero, zero_div]
      positivity
    · obtain ⟨hupos, hun⟩ := one_le_natCast_normal u hu
      have hU : 0 < round_binary32 (u : ℚ) := round_binary32_pos hupos hun
      have hUn := round_binary32_ge_min_normal hupos hun
      have hUT : round_binary32 (u : ℚ) ≤ round_binary32 (t : ℚ) :=
        round_binary32_mono hupos (by exact_mod_cast hut)
      have hprod : 0 < 100 * round_binary32 (u : ℚ) := by positivity
      have hprodn : (2 : ℚ) ^ (-126 : ℤ) ≤ 100 * round_binary32 (u : ℚ) := by nlinarith
      have hP := round_binary32_le_mul hprod hprodn
      have hPpos := round_binary32_pos hprod hprodn
      have heps : (0 : ℚ) < (2 : ℚ) ^ (-24 : ℤ) := by positivity
      have hQ : round_binary32 (100 * round_binary32 (u : ℚ)) / round_binary32 (t : ℚ) ≤
          100 * (1 + (2 : ℚ) ^ (-24 : ℤ)) := by
        rw [div_le_iff₀ hT]
        nlinarith
      have hQpos : 0 < round_binary32 (100 * round_binary32 (u : ℚ)) /
          round_binary32 (t : ℚ) := div_pos hPpos hT
      have hexp : float_exponent (round_binary32 (100 * round_binary32 (u : ℚ)) /
          round_binary32 (t : ℚ)) - 23 ≤ -17 := by
        have hlt : |round_binary32 (100 * round_binary32 (u : ℚ)) /
            round_binary32 (t : ℚ)| < ((2 : ℕ) : ℚ) ^ (7 : ℤ) := by
          rw [abs_of_pos hQpos]
          have : (100 : ℚ) * (1 + (2 : ℚ) ^ (-24 : ℤ)) < ((2 : ℕ) : ℚ) ^ (7 : ℤ) := by
            norm_num
          linarith
        have := (Int.lt_zpow_iff_log_lt (R := ℚ) (b := 2) (by decide)
          (abs_pos.mpr (ne_of_gt hQpos))).1 hlt
        unfold float_exponent
        omega
      apply round_binary32_le_of_le_zpow 13107201 (-17) (by norm_num) hexp
      have : (100 : ℚ) * (1 + (2 : ℚ) ^ (-24 : ℤ)) ≤ 100 + (2 : ℚ) ^ (-17 : ℤ) := by
        norm_num
      linarith

/-- Evaluation of `round_binary32` at a positive value whose binade `e` and
nearest multiple `n` of the last place are given. -/
theorem round_binary32_eval (x : ℚ) (e n : ℤ) (he : -126 ≤ e) (hlo : (2 : ℚ) ^ e ≤ x)
    (hhi : x < (2 : ℚ) ^ (e + 1))
    (h1 : (n : ℚ) - 1 / 2 < x / (2 : ℚ) ^ (e - 23))
    (h2 : x / (2 : ℚ) ^ (e - 23) < (n : ℚ) + 1 / 2) :
    round_binary32 x = (n : ℚ) * (2 : ℚ) ^ (e - 23) := by
  have hx : 0 < x := lt_of_lt_of_le (by positivity) hlo
  apply round_binary32_eq x e n he
  · rwa [abs_of_pos hx]
  · rwa [abs_of_pos hx]
  · exact round_half_even_eq_of_near _ n h1 h2

/-- Evaluation of `round_binary32` at a positive value that lies half-way
between two neighbouring multiples of the last place. -/
theorem round_binary32_eval_tie (x : ℚ) (e n : ℤ) (he : -126 ≤ e) (hlo : (2 : ℚ) ^ e ≤ x)
    (hhi : x < (2 : ℚ) ^ (e + 1))
    (ht : x / (2 : ℚ) ^ (e - 23) = (n : ℚ) + 1 / 2) :
    round_binary32 x = ((if n % 2 = 0 then n else n + 1 : ℤ) : ℚ) * (2 : ℚ) ^ (e - 23) := by
  have hx : 0 < x := lt_of_lt_of_le (by positivity) hlo
  apply round_binary32_eq x e _ he
  · rwa [abs_of_pos hx]
  · rwa [abs_of_pos hx]
  · rw [ht, round_half_even_tie]

theorem round_binary32_671091 : round_binary32 671091 = 671091 := by
  rw [round_binary32_eval 671091 19 10737456 (by norm_num) (by norm_num) (by norm_num)
    (by norm_num) (by norm_num)]
  norm_num

theorem round_binary32_67109100 : round_binary32 67109100 = 67109104 := by
  rw [round_binary32_eval_tie 67109100 26 8388637 (by norm_num) (by norm_num) (by norm_num)
    (by norm_num)]
  norm_num

theorem round_binary32_quot_671091 :
    round_binary32 (67109104 / 671091) = 13107201 / 131072 := by
  rw [round_binary32_eval (67109104 / 671091) 6 13107201 (by norm_num) (by norm_num)
    (by norm_num) (by norm_num) (by norm_num)]
  norm_num

theorem round_binary32_4294967295 : round_binary32 4294967295 = 4294967296 := by
  rw [round_binary32_eval 4294967295 31 16777216 (by norm_num) (by norm_num) (by norm_num)
    (by norm_num) (by norm_num)]
  norm_num

theorem round_binary32_429496729600 : round_binary32 429496729600 = 429496729600 := by
  rw [round_binary32_eval 429496729600 38 13107200 (by norm_num) (by norm_num) (by norm_num)
    (by norm_num) (by norm_num)]
  norm_num

theorem round_binary32_one : round_binary32 1 = 1 := by
  rw [round_binary32_eval 1 0 8388608 (by norm_num) (by norm_num) (by norm_num)
    (by norm_num) (by norm_num)]
  norm_num

theorem round_binary32_50 : round_binary32 50 = 50 := by
  rw [round_binary32_eval 50 5 13107200 (by norm_num) (by norm_num) (by norm_num)
    (by norm_num) (by norm_num)]
  norm_num

theorem round_binary32_60 : round_binary32 60 = 60 := by
  rw [round_binary32_eval 60 5 15728640 (by norm_num) (by norm_num) (by norm_num)
    (by norm_num) (by norm_num)]
  norm_num

theorem round_binary32_5000 : round_binary32 5000 = 5000 := by
  rw [round_binary32_eval 5000 12 10240000 (by norm_num) (by norm_num) (by norm_num)
    (by norm_num) (by norm_num)]
  norm_num

theorem round_binary32_250_3 : round_binary32 (250 / 3) = 10922667 / 131072 := by
  rw [round_binary32_eval (250 / 3) 6 10922667 (by norm_num) (by norm_num) (by norm_num)
    (by norm_num) (by norm_num)]
  norm_num

/-- Four roundings with relative error at most `ε` each, composed as line 266
composes them, keep the quotient within relative error `δ` of the exact
ratio; upper half. -/
theorem rounded_quotient_upper (L Q T P U u t ε δ : ℚ) (hε0 : 0 ≤ ε) (hε1 : ε < 1)
    (hnum : (1 + ε) ^ 3 ≤ (1 + δ) * (1 - ε))
    (hu : 0 ≤ u) (hL : 0 ≤ L) (hT : 0 < T)
    (h1 : L ≤ Q * (1 + ε)) (h2 : Q * T = P) (h3 : P ≤ 100 * U * (1 + ε))
    (h4 : U ≤ u * (1 + ε)) (h5 : t * (1 - ε) ≤ T) :
    L * t ≤ 100 * u * (1 + δ) := by
  have hpos : 0 < 1 - ε := by linarith
  have h1ε : 0 ≤ 1 + ε := by linarith
  have hA : L * T ≤ P * (1 + ε) := by
    calc L * T ≤ Q * (1 + ε) * T := mul_le_mul_of_nonneg_right h1 (le_of_lt hT)
      _ = Q * T * (1 + ε) := by ring
      _ = P * (1 + ε) := by rw [h2]
  have hB : P * (1 + ε) ≤ 100 * U * (1 + ε) * (1 + ε) :=
    mul_le_mul_of_nonneg_right h3 h1ε
  have hC : 100 * U * (1 + ε) * (1 + ε) ≤ 100 * u * (1 + ε) ^ 3 := by
    have : 100 * U * (1 + ε) * (1 + ε) = U * (100 * (1 + ε) * (1 + ε)) := by ring
    rw [this]
    calc U * (100 * (1 + ε) * (1 + ε)) ≤ u * (1 + ε) * (100 * (1 + ε) * (1 + ε)) :=
          mul_le_mul_of_nonneg_right h4 (by positivity)
      _ = 100 * u * (1 + ε) ^ 3 := by ring
  have hD : L * (t * (1 - ε)) ≤ L * T := mul_le_mul_of_nonneg_left h5 hL
  have hE : 100 * u * (1 + ε) ^ 3 ≤ 100 * u * ((1 + δ) * (1 - ε)) :=
    mul_le_mul_of_nonneg_left hnum (by positivity)
  have hF : L * t * (1 - ε) ≤ 100 * u * (1 + δ) * (1 - ε) := by
    calc L * t * (1 - ε) = L * (t * (1 - ε)) := by ring
      _ ≤ 100 * u * ((1 + δ) * (1 - ε)) := by linarith
      _ = 100 * u * (1 + δ) * (1 - ε) := by ring
  exact le_of_mul_le_mul_right hF hpos

theorem rounded_quotient_lower (L Q T P U u t ε δ : ℚ) (hε0 : 0 ≤ ε) (hε1 : ε < 1)
    (hnum : (1 - δ) * (1 + ε) ≤ (1 - ε) ^ 3)
    (hu : 0 ≤ u) (hL : 0 ≤ L) (hT : 0 < T)
    (h1 : Q * (1 - ε) ≤ L) (h2 : Q * T = P) (h3 : 100 * U * (1 - ε) ≤ P)
    (h4 : u * (1 - ε) ≤ U) (h5 : T ≤ t * (1 + ε)) :
    100 * u * (1 - δ) ≤ L * t := by
  have hpos : 0 < 1 + ε := by linarith
  have h1ε : 0 ≤ 1 - ε := by linarith
  have hA : P * (1 - ε) ≤ L * T := by
    calc P * (1 - ε) = Q * (1 - ε) * T := by rw [← h2]; ring
      _ ≤ L * T := mul_le_mul_of_nonneg_right h1 (le_of_lt hT)
  have hB : 100 * U * (1 - ε) * (1 - ε) ≤ P * (1 - ε) :=
    mul_le_mul_of_nonneg_right h3 h1ε
  have hC : 100 * u * (1 - ε) ^ 3 ≤ 100 * U * (1 - ε) * (1 - ε) := by
    have : 100 * U * (1 - ε) * (1 - ε) = U * (100 * (1 - ε) * (1 - ε)) := by ring
    rw [this]
    calc 100 * u * (1 - ε) ^ 3 = u * (1 - ε) * (100 * (1 - ε) * (1 - ε)) := by ring
      _ ≤ U * (100 * (1 - ε) * (1 - ε)) :=
          mul_le_mul_of_nonneg_right h4 (by positivity)
  have hD : L * T ≤ L * (t * (1 + ε)) := mul_le_mul_of_nonneg_left h5 hL
  have hE : 100 * u * ((1 - δ) * (1 + ε)) ≤ 100 * u * (1 - ε) ^ 3 :=
    mul_le_mul_of_nonneg_left hnum (by positivity)
  have hF : 100 * u * (1 - δ) * (1 + ε) ≤ L * t * (1 + ε) := by
    calc 100 * u * (1 - δ) * (1 + ε) = 100 * u * ((1 - δ) * (1 + ε)) := by ring
      _ ≤ L * (t * (1 + ε)) := by linarith
      _ = L * t * (1 + ε) := by ring
  exact le_of_mul_le_mul_right hF hpos

/-- The value that line 266 computes in binary32 differs from the exact ratio
`100 * u / t` by a relative error of at most `2 ^ (-21)`, for `uint32_t`
operands with `t ≠ 0`. -/
theorem binary32_load_near (u t : ℕ) (ht : t ≠ 0) (ht32 : t < 2 ^ 32) :
    (100 : ℚ) * (u : ℚ) / (t : ℚ) * (1 - (2 : ℚ) ^ (-21 : ℤ)) ≤
      round_binary32
        (round_binary32 (round_binary32 100 * round_binary32 (u : ℚ)) /
          round_binary32 (t : ℚ)) ∧
    round_binary32
        (round_binary32 (round_binary32 100 * round_binary32 (u : ℚ)) /
          round_binary32 (t : ℚ)) ≤
      (100 : ℚ) * (u : ℚ) / (t : ℚ) * (1 + (2 : ℚ) ^ (-21 : ℤ)) := by
  obtain ⟨htpos, htn⟩ := one_le_natCast_normal t ht
  have hT : 0 < round_binary32 (t : ℚ) := round_binary32_pos htpos htn
  rw [round_binary32_hundred]
  by_cases hu : u = 0
  · subst hu
    simp [round_binary32_zero]
  · obtain ⟨hupos, hun⟩ := one_le_natCast_normal u hu
    have hu1 : (1 : ℚ) ≤ (u : ℚ) := by exact_mod_cast Nat.one_le_iff_ne_zero.mpr hu
    have ht32' : (t : ℚ) < 4294967296 := by exact_mod_cast ht32
    have hU : 0 < round_binary32 (u : ℚ) := round_binary32_pos hupos hun
    have hUn := round_binary32_ge_min_normal hupos hun
    have hUle := round_binary32_le_mul hupos hun
    have hUge := round_binary32_ge_mul hupos hun
    have hTle := round_binary32_le_mul htpos htn
    have hTge := round_binary32_ge_mul htpos htn
    have hprod : 0 < 100 * round_binary32 (u : ℚ) := by positivity
    have hprodn : (2 : ℚ) ^ (-126 : ℤ) ≤ 100 * round_binary32 (u : ℚ) := by nlinarith
    have hPle := round_binary32_le_mul hprod hprodn
    have hPge := round_binary32_ge_mul hprod hprodn
    have hPpos := round_binary32_pos hprod hprodn
    have hQpos : 0 < round_binary32 (100 * round_binary32 (u : ℚ)) /
        round_binary32 (t : ℚ) := div_pos hPpos hT
    have hQT : round_binary32 (100 * round_binary32 (u : ℚ)) / round_binary32 (t : ℚ) *
        round_binary32 (t : ℚ) = round_binary32 (100 * round_binary32 (u : ℚ)) :=
      div_mul_cancel₀ _ (ne_of_gt hT)
    have hε : (2 : ℚ) ^ (-24 : ℤ) = 1 / 16777216 := by norm_num
    rw [hε] at hUle hUge hTle hTge hPle hPge
    have hQn : (2 : ℚ) ^ (-126 : ℤ) ≤ round_binary32 (100 * round_binary32 (u : ℚ)) /
        round_binary32 (t : ℚ) := by
      have hP1 : (1 : ℚ) ≤ round_binary32 (100 * round_binary32 (u : ℚ)) := by nlinarith
      have hT33 : round_binary32 (t : ℚ) ≤ 8589934592 := by nlinarith
      have h33 : (2 : ℚ) ^ (-126 : ℤ) ≤ 1 / 8589934592 := by
        have : (1 : ℚ) / 8589934592 = (2 : ℚ) ^ (-33 : ℤ) := by norm_num
        rw [this]
        exact zpow_le_zpow_right₀ (by norm_num) (by norm_num)
      refine le_trans h33 ?_
      rw [div_le_div_iff₀ (by norm_num) hT]
      nlinarith
    have hLle := round_binary32_le_mul hQpos hQn
    have hLge := round_binary32_ge_mul hQpos hQn
    rw [hε] at hLle hLge
    have hL0 : 0 ≤ round_binary32 (round_binary32 (100 * round_binary32 (u : ℚ)) /
        round_binary32 (t : ℚ)) := round_binary32_nonneg (le_of_lt hQpos)
    have hδ : (2 : ℚ) ^ (-21 : ℤ) = 1 / 2097152 := by norm_num
    rw [hδ]
    constructor
    · rw [div_mul_eq_mul_div, div_le_iff₀ htpos]
      exact rounded_quotient_lower _ _ _ _ _ _ _ (1 / 16777216) (1 / 2097152) (by norm_num)
        (by norm_num) (by norm_num) (le_of_lt hupos) hL0 hT hLge hQT hPge hUge hTle
    · rw [div_mul_eq_mul_div, le_div_iff₀ htpos]
      exact rounded_quotient_upper _ _ _ _ _ _ _ (1 / 16777216) (1 / 2097152) (by norm_num)
        (by norm_num) (by norm_num) (le_of_lt hupos) hL0 hT hLle hQT hPle hUle hTge


/-- No value formed on line 266 from `uint32_t` operands with a non-zero
divisor reaches the overflow threshold `2 ^ 128` of binary32. -/
theorem binary32_load_lt_overflow (u t : ℕ) (hu32 : u < 2 ^ 32) (ht : t ≠ 0)
    (ht32 : t < 2 ^ 32) :
    round_binary32 (u : ℚ) < (2 : ℚ) ^ (128 : ℤ) ∧
    round_binary32 (t : ℚ) < (2 : ℚ) ^ (128 : ℤ) ∧
    round_binary32 (round_binary32 100 * round_binary32 (u : ℚ)) < (2 : ℚ) ^ (128 : ℤ) ∧
    round_binary32
      (round_binary32 (round_binary32 100 * round_binary32 (u : ℚ)) / round_binary32 (t : ℚ))
      < (2 : ℚ) ^ (128 : ℤ) := by
  have hbig : (1099511627776 : ℚ) < (2 : ℚ) ^ (128 : ℤ) := by norm_num
  have hε : (2 : ℚ) ^ (-24 : ℤ) = 1 / 16777216 := by norm_num
  have hδ : (2 : ℚ) ^ (-21 : ℤ) = 1 / 2097152 := by norm_num
  obtain ⟨htpos, htn⟩ := one_le_natCast_normal t ht
  have ht1 : (1 : ℚ) ≤ (t : ℚ) := by exact_mod_cast Nat.one_le_iff_ne_zero.mpr ht
  have ht32' : (t : ℚ) < 4294967296 := by exact_mod_cast ht32
  have hu32' : (u : ℚ) < 4294967296 := by exact_mod_cast hu32
  have hTle := round_binary32_le_mul htpos htn
  rw [hε] at hTle
  have hT : round_binary32 (t : ℚ) < (2 : ℚ) ^ (128 : ℤ) := by
    refine lt_trans ?_ hbig
    nlinarith
  obtain ⟨_, hhi⟩ := binary32_load_near u t ht ht32
  rw [hδ] at hhi
  have hratio : (100 : ℚ) * (u : ℚ) / (t : ℚ) ≤ 100 * (u : ℚ) := by
    rw [div_le_iff₀ htpos]
    have : (0 : ℚ) ≤ (u : ℚ) := Nat.cast_nonneg u
    nlinarith
  have hL : round_binary32
      (round_binary32 (round_binary32 100 * round_binary32 (u : ℚ)) / round_binary32 (t : ℚ))
      < (2 : ℚ) ^ (128 : ℤ) := by
    refine lt_trans ?_ hbig
    have h0 : (0 : ℚ) ≤ (100 : ℚ) * (u : ℚ) / (t : ℚ) :=
      div_nonneg (mul_nonneg (by norm_num) (Nat.cast_nonneg u)) (le_of_lt htpos)
    nlinarith
  rw [round_binary32_hundred]
  by_cases hu : u = 0
  · subst hu
    simp only [Nat.cast_zero, round_binary32_zero, mul_zero]
    rw [round_binary32_hundred] at hL
    simp only [Nat.cast_zero, round_binary32_zero, mul_zero] at hL
    exact ⟨by positivity, hT, by positivity, hL⟩
  · obtain ⟨hupos, hun⟩ := one_le_natCast_normal u hu
    have hUle := round_binary32_le_mul hupos hun
    have hU := round_binary32_pos hupos hun
    have hUn := round_binary32_ge_min_normal hupos hun
    have hprod : 0 < 100 * round_binary32 (u : ℚ) := by positivity
    have hprodn : (2 : ℚ) ^ (-126 : ℤ) ≤ 100 * round_binary32 (u : ℚ) := by nlinarith
    have hPle := round_binary32_le_mul hprod hprodn
    rw [hε] at hUle hPle
    rw [round_binary32_hundred] at hL
    refine ⟨?_, hT, ?_, hL⟩
    · refine lt_trans ?_ hbig
      nlinarith
    · refine lt_trans ?_ hbig
      nlinarith

/-! ## Load estimator -/

theorem cpu_load_sums_exact (s : State) (hsum : profilers_sum s < UINT32_MOD) :
    cpu_load_useful s =
      s.red_led_ctrl_task_profiler + s.green_led_ctrl_task_profiler +
      s.blue_led_ctrl_task_profiler + s.orange_led_ctrl_task_profiler +
      s.read_button_state_task_profiler ∧
    cpu_load_total s = cpu_load_useful s + s.idle_task_profiler := by
  unfold profilers_sum UINT32_MOD at hsum
  unfold cpu_load_useful cpu_load_total uadd32 UINT32_MOD
  constructor <;> omega

theorem cpu_load_total_lt (s : State) : cpu_load_total s < 2 ^ 32 := by
  unfold cpu_load_total uadd32 UINT32_MOD
  exact Nat.mod_lt _ (by norm_num)

/-- With rounding left aside the published value is the exact ratio, which
is a percentage when `useful ≤ total`. -/
theorem exact_load_percent (u t : Nat) (hu : u ≤ t) (ht : t ≠ 0) :
    (float_div id (id (id 100 * id (u : ℚ))) (id (t : ℚ))).isPercent := by
  have ht' : (t : ℚ) ≠ 0 := by exact_mod_cast ht
  have hpos : (0 : ℚ) < (t : ℚ) := by
    have : 0 < t := Nat.pos_of_ne_zero ht
    exact_mod_cast this
  have hu' : (u : ℚ) ≤ (t : ℚ) := by exact_mod_cast hu
  have hu0 : (0 : ℚ) ≤ (u : ℚ) := by exact_mod_cast Nat.zero_le u
  simp only [float_div, id, ht', if_false, FloatVal.isPercent]
  constructor
  · apply div_nonneg
    · nlinarith
    · exact le_of_lt hpos
  · rw [div_le_iff₀ hpos]
    nlinarith

/-- C5 (as stated, refuted): in the initial state all six profilers are
zero, yet the load published by one pass of `cpu_load_calc_task` is the
`NaN` of the unguarded division `0/0`, not `0`. -/
theorem cpu_load_zero_total_not_zero :
    profilers_sum initial_state = 0 ∧ cpu_load_total initial_state = 0 ∧
    (cpu_load_calc_task_iter initial_state).cpu_load = FloatVal.nan ∧
    (cpu_load_calc_task_iter initial_state).cpu_load ≠ FloatVal.finite 0 := by
  have h : (cpu_load_calc_task_iter initial_state).cpu_load = FloatVal.nan := by
    simp [cpu_load_calc_task_iter, cpu_load_calc_task_iter_with, cpu_load_total,
      cpu_load_useful, uadd32, UINT32_MOD, initial_state, float_div, round_binary32_zero]
  refine ⟨rfl, rfl, h, ?_⟩
  rw [h]
  simp

/-- C5 (amended): when all six profilers are zero, one pass of
`cpu_load_calc_task` computes `total = 0` and `useful = 0`, divides by that
zero total with no guard, publishes the resulting `NaN`, and leaves the six
profilers at zero. -/
theorem cpu_load_calc_task_zero_total (s : State) (hzero : profilers_sum s = 0) :
    cpu_load_total s = 0 ∧ cpu_load_useful s = 0 ∧
    (cpu_load_calc_task_iter s).cpu_load = float_div round_binary32 ((100 : ℚ) * 0) 0 ∧
    (cpu_load_calc_task_iter s).cpu_load = FloatVal.nan ∧
    profilers_sum (cpu_load_calc_task_iter s) = 0 := by
  have hsum : profilers_sum s < UINT32_MOD := by
    rw [hzero]
    decide
  obtain ⟨hu, ht⟩ := cpu_load_sums_exact s hsum
  unfold profilers_sum at hzero
  have hu0 : cpu_load_useful s = 0 := by omega
  have ht0 : cpu_load_total s = 0 := by omega
  refine ⟨ht0, hu0, ?_, ?_, rfl⟩
  · simp [cpu_load_calc_task_iter, cpu_load_calc_task_iter_with, hu0, ht0,
      round_binary32_zero]
  · simp [cpu_load_calc_task_iter, cpu_load_calc_task_iter_with, hu0, ht0,
      round_binary32_zero, float_div]

/-- C6 (as stated, refuted): with the `uint32_t` profiler values
`(4294967295, 0, 0, 0, 0, 2)` the wrapped `total` is `1`, non-zero, while
`useful` is `4294967295`, so the published load is `429496729600`. And with
`(671091, 0, 0, 0, 0, 0)`, where nothing wraps and `useful = total`, the
binary32 product `100 * useful` rounds up to `67109104` and the quotient to
`100 + 2 ^ (-17)`, just above `100`. -/
theorem cpu_load_above_100 :
    (profilers_in_range (with_profilers 4294967295 0 0 0 0 2) ∧
      cpu_load_total (with_profilers 4294967295 0 0 0 0 2) = 1 ∧
      cpu_load_total (with_profilers 4294967295 0 0 0 0 2) ≠ 0 ∧
      cpu_load_useful (with_profilers 4294967295 0 0 0 0 2) = 4294967295 ∧
      (cpu_load_calc_task_iter (with_profilers 4294967295 0 0 0 0 2)).cpu_load =
        FloatVal.finite 429496729600 ∧
      ¬ (cpu_load_calc_task_iter (with_profilers 4294967295 0 0 0 0 2)).cpu_load.isPercent) ∧
    (profilers_in_range (with_profilers 671091 0 0 0 0 0) ∧
      profilers_sum (with_profilers 671091 0 0 0 0 0) < UINT32_MOD ∧
      cpu_load_total (with_profilers 671091 0 0 0 0 0) = 671091 ∧
      cpu_load_total (with_profilers 671091 0 0 0 0 0) ≠ 0 ∧
      cpu_load_useful (with_profilers 671091 0 0 0 0 0) = 671091 ∧
      (cpu_load_calc_task_iter (with_profilers 671091 0 0 0 0 0)).cpu_load =
        FloatVal.finite (13107201 / 131072) ∧
      ¬ (cpu_load_calc_task_iter (with_profilers 671091 0 0 0 0 0)).cpu_load.isPercent) := by
  have ht : cpu_load_total (with_profilers 4294967295 0 0 0 0 2) = 1 := by decide
  have hu : cpu_load_useful (with_profilers 4294967295 0 0 0 0 2) = 4294967295 := by decide
  have hl : (cpu_load_calc_task_iter (with_profilers 4294967295 0 0 0 0 2)).cpu_load =
      FloatVal.finite 429496729600 := by
    simp only [cpu_load_calc_task_iter, cpu_load_calc_task_iter_with, ht, hu, float_div]
    norm_num [round_binary32_hundred, round_binary32_4294967295, round_binary32_one,
      round_binary32_429496729600]
  have ht' : cpu_load_total (with_profilers 671091 0 0 0 0 0) = 671091 := by decide
  have hu' : cpu_load_useful (with_profilers 671091 0 0 0 0 0) = 671091 := by decide
  have hl' : (cpu_load_calc_task_iter (with_profilers 671091 0 0 0 0 0)).cpu_load =
      FloatVal.finite (13107201 / 131072) := by
    simp only [cpu_load_calc_task_iter, cpu_load_calc_task_iter_with, ht', hu', float_div]
    norm_num [round_binary32_hundred, round_binary32_671091, round_binary32_67109100,
      round_binary32_quot_671091]
  refine ⟨⟨by unfold profilers_in_range; decide, ht, by rw [ht]; decide, hu, hl, ?_⟩,
    ⟨by unfold profilers_in_range; decide, by decide, ht', by rw [ht']; decide, hu', hl', ?_⟩⟩
  · rw [hl]
    simp only [FloatVal.isPercent]
    norm_num
  · rw [hl']
    simp only [FloatVal.isPercent]
    norm_num

/-- C6 (amended): for profiler values whose six-term sum fits in 32
bits and is non-zero, the exact ratio `100 * useful / total` lies in
`[0, 100]`, and the load that one pass of `cpu_load_calc_task` publishes in
binary32 is a finite value in `[0, 100 + 2 ^ (-17)]`, the upper end being the
`float` next above `100`. -/
theorem cpu_load_in_percent_range (s : State) (hsum : profilers_sum s < UINT32_MOD)
    (htotal : cpu_load_total s ≠ 0) :
    (cpu_load_calc_task_iter_with id s).cpu_load.isPercent ∧
    (cpu_load_calc_task_iter s).cpu_load.isWithin 0 (100 + 1 / 131072) := by
  obtain ⟨_, ht⟩ := cpu_load_sums_exact s hsum
  have hut : cpu_load_useful s ≤ cpu_load_total s := by omega
  refine ⟨exact_load_percent _ _ hut htotal, ?_⟩
  obtain ⟨hT, h0, h100⟩ := binary32_load_bounds _ _ hut htotal
  simp only [cpu_load_calc_task_iter, cpu_load_calc_task_iter_with, float_div, hT, if_false,
    FloatVal.isWithin]
  refine ⟨h0, le_trans h100 ?_⟩
  norm_num

/-- C7: for profiler values `(r, g, b, o, p, i)` whose sum fits in 32
bits and is non-zero, one pass of `cpu_load_calc_task` computes
`useful = r + g + b + o + p`, `total = useful + i`, publishes
`100 * useful / total` and resets the six profilers. Floating-point rounding
aside the published value is that exact ratio; in binary32 it is a finite
value within relative error `2 ^ (-21)` of it. `(10,10,10,10,10,10)` gives
`useful = 50`, `total = 60` and load `250/3` (in binary32
`10922667 / 131072`, about 83.3333359); with the five task profilers at zero
the load is `0`. -/
theorem cpu_load_calc_task_exact (s : State) (hsum : profilers_sum s < UINT32_MOD)
    (hpos : profilers_sum s ≠ 0) :
    cpu_load_useful s =
      s.red_led_ctrl_task_profiler + s.green_led_ctrl_task_profiler +
      s.blue_led_ctrl_task_profiler + s.orange_led_ctrl_task_profiler +
      s.read_button_state_task_profiler ∧
    cpu_load_total s = cpu_load_useful s + s.idle_task_profiler ∧
    cpu_load_total s ≠ 0 ∧
    (cpu_load_calc_task_iter_with id s).cpu_load =
      FloatVal.finite ((100 : ℚ) * (cpu_load_useful s : ℚ) / (cpu_load_total s : ℚ)) ∧
    (∃ q : ℚ, (cpu_load_calc_task_iter s).cpu_load = FloatVal.finite q ∧
      (100 : ℚ) * (cpu_load_useful s : ℚ) / (cpu_load_total s : ℚ) * (1 - 1 / 2097152) ≤ q ∧
      q ≤ (100 : ℚ) * (cpu_load_useful s : ℚ) / (cpu_load_total s : ℚ) * (1 + 1 / 2097152)) ∧
    (cpu_load_calc_task_iter s).red_led_ctrl_task_profiler = 0 ∧
    (cpu_load_calc_task_iter s).green_led_ctrl_task_profiler = 0 ∧
    (cpu_load_calc_task_iter s).blue_led_ctrl_task_profiler = 0 ∧
    (cpu_load_calc_task_iter s).orange_led_ctrl_task_profiler = 0 ∧
    (cpu_load_calc_task_iter s).read_button_state_task_profiler = 0 ∧
    (cpu_load_calc_task_iter s).idle_task_profiler = 0 ∧
    (cpu_load_useful s = 0 →
      (cpu_load_calc_task_iter_with id s).cpu_load = FloatVal.finite 0 ∧
      (cpu_load_calc_task_iter s).cpu_load = FloatVal.finite 0) ∧
    cpu_load_useful (with_profilers 10 10 10 10 10 10) = 50 ∧
    cpu_load_total (with_profilers 10 10 10 10 10 10) = 60 ∧
    (cpu_load_calc_task_iter_with id (with_profilers 10 10 10 10 10 10)).cpu_load =
      FloatVal.finite (250 / 3) ∧
    (cpu_load_calc_task_iter (with_profilers 10 10 10 10 10 10)).cpu_load =
      FloatVal.finite (10922667 / 131072) := by
  obtain ⟨hu, ht⟩ := cpu_load_sums_exact s hsum
  have htne : cpu_load_total s ≠ 0 := by
    unfold profilers_sum at hpos
    omega
  have hut : cpu_load_useful s ≤ cpu_load_total s := by omega
  have htq : (cpu_load_total s : ℚ) ≠ 0 := by exact_mod_cast htne
  have hload : (cpu_load_calc_task_iter_with id s).cpu_load =
      FloatVal.finite ((100 : ℚ) * (cpu_load_useful s : ℚ) / (cpu_load_total s : ℚ)) := by
    simp only [cpu_load_calc_task_iter_with, float_div, id, htq, if_false]
  obtain ⟨hT, _, _⟩ := binary32_load_bounds _ _ hut htne
  have hbin : (cpu_load_calc_task_iter s).cpu_load =
      FloatVal.finite (round_binary32
        (round_binary32 (round_binary32 100 * round_binary32 (cpu_load_useful s : ℚ)) /
          round_binary32 (cpu_load_total s : ℚ))) := by
    simp only [cpu_load_calc_task_iter, cpu_load_calc_task_iter_with, float_div, hT, if_false]
  obtain ⟨hlo, hhi⟩ := binary32_load_near _ _ htne (cpu_load_total_lt s)
  have hδ : (2 : ℚ) ^ (-21 : ℤ) = 1 / 2097152 := by norm_num
  rw [hδ] at hlo hhi
  have h50 : cpu_load_useful (with_profilers 10 10 10 10 10 10) = 50 := by decide
  have h60 : cpu_load_total (with_profilers 10 10 10 10 10 10) = 60 := by decide
  refine ⟨hu, ht, htne, hload, ⟨_, hbin, hlo, hhi⟩, rfl, rfl, rfl, rfl, rfl, rfl, ?_, h50, h60,
    ?_, ?_⟩
  · intro hz
    constructor
    · rw [hload, hz]
      simp
    · rw [hbin, hz]
      simp [round_binary32_zero]
  · simp only [cpu_load_calc_task_iter_with, h50, h60, float_div, id]
    norm_num
  · simp only [cpu_load_calc_task_iter, cpu_load_calc_task_iter_with, h50, h60, float_div]
    norm_num [round_binary32_hundred, round_binary32_50, round_binary32_60,
      round_binary32_5000, round_binary32_250_3]

/-! ## Profiler increments -/

/-- C9 (the poll task part fails): an iteration of each LED toggle
task and a call of the idle hook add one to their own profiler, but an
iteration of `read_button_state_task` leaves
`read_button_state_task_profiler` as it was, whatever the button reads; from
the initial state an inactive poll returns with that profiler still `0`. -/
theorem read_button_state_task_profiler_unchanged (xTaskCreate : Spawn) (pressed : Bool)
    (s : State) :
    (red_led_ctrl_task_iter s).red_led_ctrl_task_profiler =
      uadd32 s.red_led_ctrl_task_profiler 1 ∧
    (green_led_ctrl_task_iter s).green_led_ctrl_task_profiler =
      uadd32 s.green_led_ctrl_task_profiler 1 ∧
    (blue_led_ctrl_task_iter s).blue_led_ctrl_task_profiler =
      uadd32 s.blue_led_ctrl_task_profiler 1 ∧
    (orange_led_ctrl_task_iter s).orange_led_ctrl_task_profiler =
      uadd32 s.orange_led_ctrl_task_profiler 1 ∧
    (vApplicationIdleHook s).idle_task_profiler = uadd32 s.idle_task_profiler 1 ∧
    (final_state (read_button_state_task_iter xTaskCreate pressed s)).read_button_state_task_profiler
      = s.read_button_state_task_profiler ∧
    (∃ s', read_button_state_task_iter xTaskCreate false initial_state = .ok s' ∧
      s'.read_button_state_task_profiler = 0 ∧
      s'.read_button_state_task_profiler ≠
        uadd32 initial_state.read_button_state_task_profiler 1) := by
  refine ⟨rfl, rfl, rfl, rfl, rfl, ?_, ⟨_, rfl, rfl, by decide⟩⟩
  cases pressed
  · rfl
  · simp only [read_button_state_task_iter, if_true]
    exact (manage_tasks_frame xTaskCreate _ _).2

/-! ## Instances of the theorems above on concrete inputs -/

theorem spawn_fresh_succeeds (tasks : List Tcb) (fn : TaskFn) (prio : Nat) :
    SpawnSucceeds spawn_fresh tasks fn prio :=
  ⟨tasks.length + 1, Nat.succ_ne_zero _, rfl⟩

theorem manage_tasks_spawns_witness :
    initial_state.task_handlers 2 = NULL ∧ (1 : TaskHandle) ≠ NULL ∧
    spawn_fresh initial_state.tasks (slot_task 2) LED_CTRL_TASK_PRIORITY = some 1 ∧
    ∃ s', manage_tasks spawn_fresh 2 initial_state = .ok s' ∧
      s'.tasks = initial_state.tasks ++
        [{ handle := 1, code := slot_task 2, priority := LED_CTRL_TASK_PRIORITY }] ∧
      s'.task_handlers 2 = 1 ∧ s'.task_handlers 2 ≠ NULL :=
  ⟨rfl, by decide, rfl,
    (manage_tasks_spawns spawn_fresh initial_state 2 1 rfl (by decide) rfl).1⟩

theorem manage_tasks_twice_witness :
    initial_state.task_handlers 0 = NULL ∧ (1 : TaskHandle) ≠ NULL ∧
    spawn_fresh initial_state.tasks (slot_task 0) LED_CTRL_TASK_PRIORITY = some 1 ∧
    ∃ s1 s2, manage_tasks spawn_fresh 0 initial_state = .ok s1 ∧
      manage_tasks spawn_fresh 0 s1 = .ok s2 ∧ s2.task_handlers 0 = NULL :=
  ⟨rfl, by decide, rfl,
    match manage_tasks_twice spawn_fresh initial_state 0 1 rfl (by decide) rfl with
    | ⟨s1, s2, h1, h2, _, h3, _⟩ => ⟨s1, s2, h1, h2, h3⟩⟩

theorem manage_tasks_fault_iff_witness :
    MAX_TASKS_NUMBER ≤ 7 ∧
    ∃ e, manage_tasks spawn_fresh 7 initial_state = .error e ∧
      e.tasks = initial_state.tasks ∧ e.task_handlers = initial_state.task_handlers :=
  ⟨by decide, (manage_tasks_fault_iff spawn_fresh 7 initial_state).2.2 (by decide)⟩

theorem manage_tasks_seq_parity_witness :
    (∀ tasks fn prio, SpawnSucceeds spawn_fresh tasks fn prio) ∧
    (∀ j, initial_state.task_handlers j = NULL) ∧
    (∀ i ∈ [0, 1, 2, 3, 0], i < MAX_TASKS_NUMBER) ∧
    ∃ s', manage_tasks_seq spawn_fresh [0, 1, 2, 3, 0] initial_state = .ok s' ∧
      ∀ j : Fin 4, (s'.task_handlers j ≠ NULL ↔ Odd ([0, 1, 2, 3, 0].count j.val)) :=
  ⟨spawn_fresh_succeeds, fun _ => rfl, by decide,
    (manage_tasks_seq_parity spawn_fresh spawn_fresh_succeeds initial_state (fun _ => rfl)
      [0, 1, 2, 3, 0] (by decide)).1⟩

theorem cpu_load_calc_task_zero_total_witness :
    profilers_sum initial_state = 0 ∧
    (cpu_load_calc_task_iter initial_state).cpu_load = FloatVal.nan :=
  ⟨rfl, (cpu_load_calc_task_zero_total initial_state rfl).2.2.2.1⟩

theorem cpu_load_in_percent_range_witness :
    profilers_sum (with_profilers 671091 0 0 0 0 0) < UINT32_MOD ∧
    cpu_load_total (with_profilers 671091 0 0 0 0 0) ≠ 0 ∧
    (cpu_load_calc_task_iter (with_profilers 671091 0 0 0 0 0)).cpu_load.isWithin 0
      (100 + 1 / 131072) :=
  ⟨by decide, by decide,
    (cpu_load_in_percent_range (with_profilers 671091 0 0 0 0 0) (by decide) (by decide)).2⟩

theorem cpu_load_calc_task_exact_witness :
    profilers_sum (with_profilers 3 0 1 0 2 18) < UINT32_MOD ∧
    profilers_sum (with_profilers 3 0 1 0 2 18) ≠ 0 ∧
    cpu_load_useful (with_profilers 3 0 1 0 2 18) = 3 + 0 + 1 + 0 + 2 :=
  ⟨by decide, by decide,
    (cpu_load_calc_task_exact (with_profilers 3 0 1 0 2 18) (by decide) (by decide)).1⟩

theorem th_index_advance_cycle_witness :
    3 < MAX_TASKS_NUMBER ∧ th_index_advance 3 = (3 + 1) % MAX_TASKS_NUMBER ∧
    th_index_advance^[MAX_TASKS_NUMBER] 3 = 3 :=
  ⟨by decide, (th_index_advance_cycle 3 (by decide)).1,
    (th_index_advance_cycle 3 (by decide)).2.2.2⟩

theorem read_button_state_task_round_robin_witness :
    initial_state.th_index = 0 ∧
    read_button_state_task_run spawn_fresh [true, false, true] initial_state =
      .ok (final_state
        (read_button_state_task_run spawn_fresh [true, false, true] initial_state)) ∧
    (final_state
      (read_button_state_task_run spawn_fresh [true, false, true] initial_state)).th_index =
      [true, false, true].count true % MAX_TASKS_NUMBER :=
  ⟨rfl, rfl,
    (read_button_state_task_round_robin spawn_fresh initial_state rfl [true, false, true]
      _ rfl).1⟩

end Homework
